import Mathlib

/-!
Verification development for an incremental HTTP/1.x parser (a Rust port of
http_parser).  The embedding below transcribes `src/parser.rs`.  The enum
declarations (`State`, `HeaderState`, `Flags`, `HttpErrno`, `HttpMethod`) live
in modules that are not part of the sources; they are modelled from the
specification, as marked on each declaration.  All behaviour (the `execute`
state machine, `http_should_keep_alive`, `http_message_needs_eof`,
`parse_url_char`, `new`) is transcribed from `parser.rs` line by line; source
line numbers are given in comments.
-/

set_option maxHeartbeats 4000000
set_option maxRecDepth 8000

/-- Parser mode, from `parser.rs` lines 11-16. -/
inductive HttpParserType
  | Request
  | Response
  | Both
deriving DecidableEq

/-- Modelled from the spec: the `State` enum lives in the `state` module which
is not under `src/`.  The constructor order follows the grouping in spec
section 4.3 (Start, response status line, request line, headers, body,
chunked); the only ordering fact `parser.rs` uses is `state <= HeadersDone`
(line 367), which holds exactly for the states up to and including
`HeadersDone` in this listing. -/
inductive State
  | StartReqOrRes
  | StartReq
  | StartRes
  | Dead
  | ResOrRespH
  | ResH
  | ResHT
  | ResHTT
  | ResHTTP
  | ResFirstHttpMajor
  | ResHttpMajor
  | ResFirstHttpMinor
  | ResHttpMinor
  | ResFirstStatusCode
  | ResStatusCode
  | ResStatusStart
  | ResStatus
  | ResLineAlmostDone
  | ReqMethod
  | ReqSpacesBeforeUrl
  | ReqSchema
  | ReqSchemaSlash
  | ReqSchemaSlashSlash
  | ReqServerStart
  | ReqServer
  | ReqServerWithAt
  | ReqPath
  | ReqQueryStringStart
  | ReqQueryString
  | ReqFragmentStart
  | ReqFragment
  | ReqHttpStart
  | ReqHttpH
  | ReqHttpHT
  | ReqHttpHTT
  | ReqHttpHTTP
  | ReqFirstHttpMajor
  | ReqHttpMajor
  | ReqFirstHttpMinor
  | ReqHttpMinor
  | ReqLineAlmostDone
  | HeaderFieldStart
  | HeaderField
  | HeaderValueDiscardWs
  | HeaderValueDiscardWsAlmostDone
  | HeaderValueDiscardLws
  | HeaderValueStart
  | HeaderValue
  | HeaderAlmostDone
  | HeaderValueLws
  | HeadersAlmostDone
  | HeadersDone
  | BodyIdentity
  | BodyIdentityEof
  | MessageDone
  | ChunkSizeStart
  | ChunkSize
  | ChunkParameters
  | ChunkSizeAlmostDone
  | ChunkData
  | ChunkDataAlmostDone
  | ChunkDataDone
deriving DecidableEq

/-- Position of a state in the declaration order above. -/
def State.toNat : State → Nat
  | .StartReqOrRes => 0
  | .StartReq => 1
  | .StartRes => 2
  | .Dead => 3
  | .ResOrRespH => 4
  | .ResH => 5
  | .ResHT => 6
  | .ResHTT => 7
  | .ResHTTP => 8
  | .ResFirstHttpMajor => 9
  | .ResHttpMajor => 10
  | .ResFirstHttpMinor => 11
  | .ResHttpMinor => 12
  | .ResFirstStatusCode => 13
  | .ResStatusCode => 14
  | .ResStatusStart => 15
  | .ResStatus => 16
  | .ResLineAlmostDone => 17
  | .ReqMethod => 18
  | .ReqSpacesBeforeUrl => 19
  | .ReqSchema => 20
  | .ReqSchemaSlash => 21
  | .ReqSchemaSlashSlash => 22
  | .ReqServerStart => 23
  | .ReqServer => 24
  | .ReqServerWithAt => 25
  | .ReqPath => 26
  | .ReqQueryStringStart => 27
  | .ReqQueryString => 28
  | .ReqFragmentStart => 29
  | .ReqFragment => 30
  | .ReqHttpStart => 31
  | .ReqHttpH => 32
  | .ReqHttpHT => 33
  | .ReqHttpHTT => 34
  | .ReqHttpHTTP => 35
  | .ReqFirstHttpMajor => 36
  | .ReqHttpMajor => 37
  | .ReqFirstHttpMinor => 38
  | .ReqHttpMinor => 39
  | .ReqLineAlmostDone => 40
  | .HeaderFieldStart => 41
  | .HeaderField => 42
  | .HeaderValueDiscardWs => 43
  | .HeaderValueDiscardWsAlmostDone => 44
  | .HeaderValueDiscardLws => 45
  | .HeaderValueStart => 46
  | .HeaderValue => 47
  | .HeaderAlmostDone => 48
  | .HeaderValueLws => 49
  | .HeadersAlmostDone => 50
  | .HeadersDone => 51
  | .BodyIdentity => 52
  | .BodyIdentityEof => 53
  | .MessageDone => 54
  | .ChunkSizeStart => 55
  | .ChunkSize => 56
  | .ChunkParameters => 57
  | .ChunkSizeAlmostDone => 58
  | .ChunkData => 59
  | .ChunkDataAlmostDone => 60
  | .ChunkDataDone => 61

/-- Transcribes the test `self.state <= State::HeadersDone` of `parser.rs`
line 367. -/
def stateLeHeadersDone (s : State) : Bool :=
  s.toNat ≤ State.HeadersDone.toNat

/-- Modelled from the spec: the `HeaderState` enum lives in the `state` module
which is not under `src/`; the constructor set is exactly the set of values
used in `parser.rs` (spec section 4.3, header name and value recognition). -/
inductive HeaderState
  | General
  | C
  | CO
  | CON
  | MatchingConnection
  | MatchingProxyConnection
  | MatchingContentLength
  | MatchingTransferEncoding
  | MatchingUpgrade
  | Connection
  | ContentLength
  | TransferEncoding
  | Upgrade
  | MatchingTransferEncodingChunked
  | MatchingConnectionKeepAlive
  | MatchingConnectionClose
  | TransferEncodingChunked
  | ConnectionKeepAlive
  | ConnectionClose
deriving DecidableEq

/-- Modelled from the spec: the error taxonomy of spec section 7; the
`error` module is not under `src/`. -/
inductive HttpErrno
  | Unknown
  | HeaderOverflow
  | ClosedConnection
  | InvalidVersion
  | InvalidStatus
  | InvalidMethod
  | InvalidUrl
  | InvalidHost
  | InvalidPort
  | InvalidPath
  | InvalidQueryString
  | InvalidFragment
  | LFExpected
  | InvalidHeaderToken
  | InvalidContentLength
  | InvalidChunkSize
  | InvalidConstant
  | InvalidInternalState
  | Strict
  | Paused
  | CBMessageBegin
  | CBUrl
  | CBHeaderField
  | CBHeaderValue
  | CBHeadersComplete
  | CBBody
  | CBMessageComplete
  | CBStatus
  | InvalidEofState
deriving DecidableEq

/-- Modelled from the spec: the `http_method` module is not under `src/`; the
constructor set is the set of methods named in `parser.rs` (spec section 4.3
method dispatch). -/
inductive HttpMethod
  | Connect
  | Delete
  | Get
  | Head
  | Lock
  | MKCol
  | Notify
  | Options
  | Post
  | Report
  | Subscribe
  | Trace
  | Unlock
  | Checkout
  | Copy
  | Move
  | Merge
  | MSearch
  | MKActivity
  | MKCalendar
  | Search
  | PropFind
  | PropPatch
  | Put
  | Patch
  | Purge
  | Unsubscribe
deriving DecidableEq

/-- Modelled from the spec: byte spelling of each method name, the value of
`method.to_string()` used as the matcher in `parser.rs` line 634.  These are
the standard HTTP method names, consistent with the pivot table of spec
section 4.3 (for example `MKCOL` pivots to `MOVE` on byte `O` at index 1). -/
def methodBytes : HttpMethod → List Nat
  | .Connect => [67, 79, 78, 78, 69, 67, 84]                -- CONNECT
  | .Delete => [68, 69, 76, 69, 84, 69]                     -- DELETE
  | .Get => [71, 69, 84]                                    -- GET
  | .Head => [72, 69, 65, 68]                               -- HEAD
  | .Lock => [76, 79, 67, 75]                               -- LOCK
  | .MKCol => [77, 75, 67, 79, 76]                          -- MKCOL
  | .Notify => [78, 79, 84, 73, 70, 89]                     -- NOTIFY
  | .Options => [79, 80, 84, 73, 79, 78, 83]                -- OPTIONS
  | .Post => [80, 79, 83, 84]                               -- POST
  | .Report => [82, 69, 80, 79, 82, 84]                     -- REPORT
  | .Subscribe => [83, 85, 66, 83, 67, 82, 73, 66, 69]      -- SUBSCRIBE
  | .Trace => [84, 82, 65, 67, 69]                          -- TRACE
  | .Unlock => [85, 78, 76, 79, 67, 75]                     -- UNLOCK
  | .Checkout => [67, 72, 69, 67, 75, 79, 85, 84]           -- CHECKOUT
  | .Copy => [67, 79, 80, 89]                               -- COPY
  | .Move => [77, 79, 86, 69]                               -- MOVE
  | .Merge => [77, 69, 82, 71, 69]                          -- MERGE
  | .MSearch => [77, 45, 83, 69, 65, 82, 67, 72]            -- M-SEARCH
  | .MKActivity => [77, 75, 65, 67, 84, 73, 86, 73, 84, 89] -- MKACTIVITY
  | .MKCalendar => [77, 75, 67, 65, 76, 69, 78, 68, 65, 82] -- MKCALENDAR
  | .Search => [83, 69, 65, 82, 67, 72]                     -- SEARCH
  | .PropFind => [80, 82, 79, 80, 70, 73, 78, 68]           -- PROPFIND
  | .PropPatch => [80, 82, 79, 80, 80, 65, 84, 67, 72]      -- PROPPATCH
  | .Put => [80, 85, 84]                                    -- PUT
  | .Patch => [80, 65, 84, 67, 72]                          -- PATCH
  | .Purge => [80, 85, 82, 71, 69]                          -- PURGE
  | .Unsubscribe => [85, 78, 83, 85, 66, 83, 67, 82, 73, 66, 69] -- UNSUBSCRIBE

/-- HTTP version pair, `parser.rs` line 19 (the `http_version` module is not
under `src/`; spec section 3 gives the two components). -/
structure HttpVersion where
  major : Nat
  minor : Nat
deriving DecidableEq

namespace Flags

/-- Modelled from the spec: the `flags` module is not under `src/`. Spec
section 3 lists the six flag bits; only distinctness of the bits is used by
`parser.rs`, which combines them with bitwise or and tests them with
bitwise and. -/
def CHUNKED : Nat := 1

/-- Modelled from the spec: see `Flags.CHUNKED`. -/
def CONNECTION_KEEP_ALIVE : Nat := 2

/-- Modelled from the spec: see `Flags.CHUNKED`. -/
def CONNECTION_CLOSE : Nat := 4

/-- Modelled from the spec: see `Flags.CHUNKED`. -/
def TRAILING : Nat := 8

/-- Modelled from the spec: see `Flags.CHUNKED`. -/
def UPGRADE : Nat := 16

/-- Modelled from the spec: see `Flags.CHUNKED`. -/
def SKIPBODY : Nat := 32

end Flags

/-- From `parser.rs` line 122: `HTTP_MAX_HEADER_SIZE = 80*1024`. -/
def HTTP_MAX_HEADER_SIZE : Nat := 80 * 1024

/-- From `parser.rs` line 123: `ULLONG_MAX = u64::MAX - 1`, that is
2^64 - 2, the sentinel meaning `content_length` is unset. -/
def ULLONG_MAX : Nat := 18446744073709551614

/-- Modulus of 64-bit unsigned arithmetic, 2^64. -/
def U64_MOD : Nat := 18446744073709551616

/-- From `parser.rs` line 128: the bytes of `"proxy-connection"`. -/
def PROXY_CONNECTION : List Nat :=
  [112, 114, 111, 120, 121, 45, 99, 111, 110, 110, 101, 99, 116, 105, 111, 110]

/-- From `parser.rs` line 129: the bytes of `"connection"`. -/
def CONNECTION : List Nat := [99, 111, 110, 110, 101, 99, 116, 105, 111, 110]

/-- From `parser.rs` line 130: the bytes of `"content-length"`. -/
def CONTENT_LENGTH : List Nat :=
  [99, 111, 110, 116, 101, 110, 116, 45, 108, 101, 110, 103, 116, 104]

/-- From `parser.rs` line 131: the bytes of `"transfer-encoding"`. -/
def TRANSFER_ENCODING : List Nat :=
  [116, 114, 97, 110, 115, 102, 101, 114, 45, 101, 110, 99, 111, 100, 105, 110, 103]

/-- From `parser.rs` line 132: the bytes of `"upgrade"`. -/
def UPGRADE_KW : List Nat := [117, 112, 103, 114, 97, 100, 101]

/-- From `parser.rs` line 133: the bytes of `"chunked"`. -/
def CHUNKED_KW : List Nat := [99, 104, 117, 110, 107, 101, 100]

/-- From `parser.rs` line 134: the bytes of `"keep-alive"`. -/
def KEEP_ALIVE : List Nat := [107, 101, 101, 112, 45, 97, 108, 105, 118, 101]

/-- From `parser.rs` line 135: the bytes of `"close"`. -/
def CLOSE : List Nat := [99, 108, 111, 115, 101]

/-- Embeds the 256-entry `TOKEN` table of `parser.rs` lines 137-186 as a
function: letters map to their lower-case form, digits and the listed
punctuation map to themselves, everything else (including space) is `None`. -/
def TOKEN (ch : Nat) : Option Nat :=
  if 97 ≤ ch ∧ ch ≤ 122 then some ch
  else if 65 ≤ ch ∧ ch ≤ 90 then some (ch + 32)
  else if 48 ≤ ch ∧ ch ≤ 57 then some ch
  else if ch = 33 ∨ ch = 35 ∨ ch = 36 ∨ ch = 37 ∨ ch = 38 ∨ ch = 39 ∨
          ch = 42 ∨ ch = 43 ∨ ch = 45 ∨ ch = 46 ∨ ch = 94 ∨ ch = 95 ∨
          ch = 96 ∨ ch = 124 ∨ ch = 126 then some ch
  else none

/-- Embeds the 256-entry `UNHEX` table of `parser.rs` lines 223-239 as a
function; the table value -1 is embedded as `none`. -/
def UNHEX (ch : Nat) : Option Nat :=
  if 48 ≤ ch ∧ ch ≤ 57 then some (ch - 48)
  else if 65 ≤ ch ∧ ch ≤ 70 then some (ch - 55)
  else if 97 ≤ ch ∧ ch ≤ 102 then some (ch - 87)
  else none

/-- From `parser.rs` lines 256-258. -/
def lower (ch : Nat) : Nat := ch ||| 32

/-- From `parser.rs` lines 260-262. -/
def is_num (ch : Nat) : Bool := decide (48 ≤ ch ∧ ch ≤ 57)

/-- From `parser.rs` lines 264-266. -/
def is_alpha (ch : Nat) : Bool :=
  decide ((97 ≤ ch ∧ ch ≤ 122) ∨ (65 ≤ ch ∧ ch ≤ 90))

/-- From `parser.rs` lines 268-270. -/
def is_alphanum (ch : Nat) : Bool := is_num ch || is_alpha ch

/-- From `parser.rs` lines 272-275. -/
def is_mark (ch : Nat) : Bool :=
  decide (ch = 45 ∨ ch = 95 ∨ ch = 46 ∨ ch = 33 ∨ ch = 126 ∨ ch = 42 ∨
          ch = 39 ∨ ch = 40 ∨ ch = 41)

/-- From `parser.rs` lines 277-281. -/
def is_userinfo_char (ch : Nat) : Bool :=
  is_alphanum ch || is_mark ch ||
  decide (ch = 37 ∨ ch = 59 ∨ ch = 58 ∨ ch = 38 ∨ ch = 61 ∨ ch = 43 ∨
          ch = 36 ∨ ch = 44)

/-- Embeds the `NORMAL_URL_CHAR` bitmap of `parser.rs` lines 188-221 together
with the high-bit rule of `is_url_char` (lines 251-254): the bitmap accepts
horizontal tab, form feed and every visible ASCII byte except `#` and `?`;
non-strict mode additionally accepts bytes with the high bit set. -/
def is_url_char (strict : Bool) (ch : Nat) : Bool :=
  decide (ch = 9 ∨ ch = 12 ∨ (33 ≤ ch ∧ ch ≤ 126 ∧ ch ≠ 35 ∧ ch ≠ 63)) ||
  (!strict && decide (128 ≤ ch))

/-- From `parser.rs` lines 243-249: in strict mode the table lookup, otherwise
space is additionally accepted. -/
def token (strict : Bool) (ch : Nat) : Option Nat :=
  if strict then TOKEN ch
  else if ch = 32 then some 32 else TOKEN ch

/-- The parser context, `parser.rs` lines 18-37. -/
structure HttpParser where
  http_version : HttpVersion
  errno : Option HttpErrno
  status_code : Nat
  method : HttpMethod
  upgrade : Bool
  strict : Bool
  tp : HttpParserType
  state : State
  header_state : HeaderState
  flags : Nat
  index : Nat
  nread : Nat
  content_length : Nat
deriving DecidableEq

/-- Constructor, `parser.rs` lines 284-304. -/
def HttpParser.new (tp : HttpParserType) : HttpParser where
  tp := tp
  state := match tp with
           | .Request => .StartReq
           | .Response => .StartRes
           | .Both => .StartReqOrRes
  header_state := .General
  flags := 0
  index := 0
  nread := 0
  content_length := ULLONG_MAX
  http_version := ⟨1, 0⟩
  errno := none
  status_code := 0
  method := .Get
  upgrade := false
  strict := true

/-- From `parser.rs` lines 1616-1635. -/
def http_message_needs_eof (p : HttpParser) : Bool :=
  if p.tp = .Request then false
  else if p.status_code / 100 = 1 ∨ p.status_code = 204 ∨ p.status_code = 304 ∨
          p.flags &&& Flags.SKIPBODY ≠ 0 then false
  else if p.flags &&& Flags.CHUNKED ≠ 0 ∨ p.content_length ≠ ULLONG_MAX then false
  else true

/-- From `parser.rs` lines 1637-1651. -/
def http_should_keep_alive (p : HttpParser) : Bool :=
  if 0 < p.http_version.major ∧ 0 < p.http_version.minor then
    -- HTTP/1.1 branch of the source
    if p.flags &&& Flags.CONNECTION_CLOSE ≠ 0 then false
    else !http_message_needs_eof p
  else
    -- HTTP/1.0-or-earlier branch of the source
    if p.flags &&& Flags.CONNECTION_KEEP_ALIVE = 0 then false
    else !http_message_needs_eof p

/-- From `parser.rs` lines 1488-1490. -/
def http_body_is_final (p : HttpParser) : Bool :=
  p.state = State.MessageDone

/-- The `start_state` macro, `parser.rs` lines 81-89. -/
def start_state (p : HttpParser) : State :=
  if p.tp = .Request then .StartReq else .StartRes

/-- The `new_message` macro, `parser.rs` lines 100-112. -/
def new_message (p : HttpParser) : State :=
  if p.strict then
    if http_should_keep_alive p then start_state p else .Dead
  else start_state p

/-- URL sub-machine, `parser.rs` lines 1504-1613 (`parse_url_char`); only the
strict flag of the parser is consulted, so it is passed directly. -/
def parse_url_char (strict : Bool) (s : State) (ch : Nat) : State :=
  if ch = 32 ∨ ch = 13 ∨ ch = 10 then .Dead
  else if strict ∧ (ch = 9 ∨ ch = 12) then .Dead
  else match s with
  | .ReqSpacesBeforeUrl =>
      if ch = 47 ∨ ch = 42 then .ReqPath
      else if is_alpha ch then .ReqSchema
      else .Dead
  | .ReqSchema =>
      if is_alpha ch then .ReqSchema
      else if ch = 58 then .ReqSchemaSlash
      else .Dead
  | .ReqSchemaSlash => if ch = 47 then .ReqSchemaSlashSlash else .Dead
  | .ReqSchemaSlashSlash => if ch = 47 then .ReqServerStart else .Dead
  | .ReqServerWithAt =>
      if ch = 64 then .Dead                    -- double @ is forbidden
      else if ch = 47 then .ReqPath
      else if ch = 63 then .ReqQueryStringStart
      else if is_userinfo_char ch ∨ ch = 91 ∨ ch = 93 then .ReqServer
      else .Dead
  | .ReqServerStart | .ReqServer =>
      if ch = 47 then .ReqPath
      else if ch = 63 then .ReqQueryStringStart
      else if ch = 64 then .ReqServerWithAt
      else if is_userinfo_char ch ∨ ch = 91 ∨ ch = 93 then .ReqServer
      else .Dead
  | .ReqPath =>
      if is_url_char strict ch then .ReqPath
      else if ch = 63 then .ReqQueryStringStart
      else if ch = 35 then .ReqFragmentStart
      else .Dead
  | .ReqQueryStringStart | .ReqQueryString =>
      if is_url_char strict ch then .ReqQueryString
      else if ch = 63 then .ReqQueryString     -- allow extra ? in query string
      else if ch = 35 then .ReqFragmentStart
      else .Dead
  | .ReqFragmentStart =>
      if is_url_char strict ch then .ReqFragment
      else if ch = 63 then .ReqFragment
      else if ch = 35 then .ReqFragmentStart
      else .Dead
  | .ReqFragment =>
      if is_url_char strict ch then .ReqFragment
      else if ch = 63 ∨ ch = 35 then .ReqFragment
      else .Dead
  | _ => .Dead

/-- Structural events delivered to the embedder; one constructor per callback
of the sink trait (spec section 6).  Data callbacks carry the emitted byteSlice. -/
inductive Event
  | MessageBegin
  | Url (s : List Nat)
  | Status (s : List Nat)
  | HeaderField (s : List Nat)
  | HeaderValue (s : List Nat)
  | HeadersComplete
  | Body (s : List Nat)
  | MessageComplete
deriving DecidableEq

/-- Decision returned by `on_headers_complete`, spec section 6. -/
inductive CallbackDecision
  | Nothing
  | SkipBody
deriving DecidableEq

/-- The event sink: for each callback, whether it succeeds (`true` = `Ok`);
`on_headers_complete` returns its decision, `none` meaning an embedder
error. -/
structure Sink where
  on_message_begin : Bool
  on_url : List Nat → Bool
  on_status : List Nat → Bool
  on_header_field : List Nat → Bool
  on_header_value : List Nat → Bool
  on_headers_complete : Option CallbackDecision
  on_body : List Nat → Bool
  on_message_complete : Bool

/-- A sink on which every callback succeeds and headers-complete answers
`Nothing`. -/
def okSink : Sink where
  on_message_begin := true
  on_url := fun _ => true
  on_status := fun _ => true
  on_header_field := fun _ => true
  on_header_value := fun _ => true
  on_headers_complete := some .Nothing
  on_body := fun _ => true
  on_message_complete := true

/-- The five per-`execute` marks, `parser.rs` lines 309-313. -/
structure Marks where
  header_field_mark : Option Nat
  header_value_mark : Option Nat
  url_mark : Option Nat
  body_mark : Option Nat
  status_mark : Option Nat
deriving DecidableEq

/-- All five marks unset. -/
def noMarks : Marks := ⟨none, none, none, none, none⟩

/-- The `mark!` macro, `parser.rs` lines 114-120: set the mark only if it is
not already set. -/
def setMark (o : Option Nat) (idx : Nat) : Option Nat :=
  match o with
  | none => some idx
  | some k => some k

/-- The byteSlice `data[a..b]` passed to data callbacks. -/
def byteSlice (data : List Nat) (a b : Nat) : List Nat := (data.drop a).take (b - a)

/-- Result of processing one byte in one iteration of the inner retry loop of
`execute`: either an early return from `execute` with the given value, or
continuation (with the retry flag of `parser.rs` line 389). -/
inductive StepRes
  | ret (p : HttpParser) (v : Nat) (evs : List Event)
  | cont (p : HttpParser) (retry : Bool) (idx : Nat) (m : Marks) (evs : List Event)
deriving DecidableEq

/-- The parser carried by a step result. -/
def StepRes.parserOf : StepRes → HttpParser
  | .ret p _ _ => p
  | .cont p _ _ _ _ => p

/-- Result of one `execute` call: the updated context, the returned number of
consumed bytes, and the events delivered to the sink, in order. -/
structure ExecResult where
  parser : HttpParser
  consumed : Nat
  events : List Event
deriving DecidableEq

/-- Tail of the `callback_data!` macro, `parser.rs` lines 64-79: after the
mark was found set and the event recorded, either continue (mark cleared by
the caller) or return `retIdx` with the given error. -/
def cbData (ok : Bool) (err : HttpErrno) (p : HttpParser) (retry : Bool)
    (curIdx retIdx : Nat) (m : Marks) (evs : List Event) : StepRes :=
  if ok then .cont p retry curIdx m evs
  else .ret { p with errno := some err } retIdx evs

/-- Arm `State::StartReqOrRes`, `parser.rs` lines 399-418. -/
def stepStartReqOrRes (sink : Sink) (p : HttpParser) (ch idx : Nat) (m : Marks)
    (evs : List Event) : StepRes :=
  if ch ≠ 13 ∧ ch ≠ 10 then
    let p := { p with flags := 0, content_length := ULLONG_MAX }
    if ch = 72 then
      let p := { p with state := .ResOrRespH }
      let evs := evs ++ [Event.MessageBegin]
      if sink.on_message_begin then .cont p false idx m evs
      else .ret { p with errno := some .CBMessageBegin } (idx + 1) evs
    else
      .cont { p with tp := .Request, state := .StartReq } true idx m evs
  else .cont p false idx m evs

/-- Invocation of `on_message_begin` at the end of the `State::StartRes` arm,
`parser.rs` lines 448-453.  In the source this block sits after the match on
the byte and therefore also runs for leading CR and LF bytes. -/
def startResMsgBegin (sink : Sink) (p : HttpParser) (idx : Nat) (m : Marks)
    (evs : List Event) : StepRes :=
  let evs := evs ++ [Event.MessageBegin]
  if sink.on_message_begin then .cont p false idx m evs
  else .ret { p with errno := some .CBMessageBegin } (idx + 1) evs

/-- Arm `State::StartRes`, `parser.rs` lines 435-454. -/
def stepStartRes (sink : Sink) (p : HttpParser) (ch idx : Nat) (m : Marks)
    (evs : List Event) : StepRes :=
  let p := { p with flags := 0, content_length := ULLONG_MAX }
  if ch = 72 then startResMsgBegin sink { p with state := .ResH } idx m evs
  else if ch = 13 ∨ ch = 10 then startResMsgBegin sink p idx m evs
  else .ret { p with errno := some .InvalidConstant } idx evs

/-- First-byte method dispatch of the `State::StartReq` arm, `parser.rs`
lines 599-617; `none` is the `InvalidMethod` default arm. -/
def startMethodFor (ch : Nat) : Option HttpMethod :=
  if ch = 67 then some .Connect
  else if ch = 68 then some .Delete
  else if ch = 71 then some .Get
  else if ch = 72 then some .Head
  else if ch = 76 then some .Lock
  else if ch = 77 then some .MKCol
  else if ch = 78 then some .Notify
  else if ch = 79 then some .Options
  else if ch = 80 then some .Post
  else if ch = 82 then some .Report
  else if ch = 83 then some .Subscribe
  else if ch = 84 then some .Trace
  else if ch = 85 then some .Unlock
  else none

/-- Arm `State::StartReq`, `parser.rs` lines 587-627. -/
def stepStartReq (sink : Sink) (p : HttpParser) (ch idx : Nat) (m : Marks)
    (evs : List Event) : StepRes :=
  if ch = 13 ∨ ch = 10 then .cont p false idx m evs
  else
    let p := { p with flags := 0, content_length := ULLONG_MAX }
    if ¬ is_alpha ch then .ret { p with errno := some .InvalidMethod } idx evs
    else
      match startMethodFor ch with
      | none =>
          .ret { p with method := .Delete, index := 1,
                        errno := some .InvalidMethod } idx evs
      | some mth =>
          let p := { p with method := mth, index := 1, state := .ReqMethod }
          let evs := evs ++ [Event.MessageBegin]
          if sink.on_message_begin then .cont p false idx m evs
          else .ret { p with errno := some .CBMessageBegin } (idx + 1) evs

/-- Method-matcher decision of the `State::ReqMethod` arm, `parser.rs`
lines 634-706: given the candidate method and the matcher cursor, the new
candidate and whether the method token is complete (space seen at its end);
`none` is an `InvalidMethod` error return. -/
def reqMethodNext (mth : HttpMethod) (ix ch : Nat) : Option (HttpMethod × Bool) :=
  let matcher := methodBytes mth
  if ch = 32 ∧ ix = matcher.length then some (mth, true)
  else if ix < matcher.length ∧ ch = matcher.getD ix 0 then some (mth, false)
  else if mth = .Connect then
    if ix = 1 ∧ ch = 72 then some (.Checkout, false)
    else if ix = 2 ∧ ch = 80 then some (.Copy, false)
    else none
  else if mth = .MKCol then
    if ix = 1 ∧ ch = 79 then some (.Move, false)
    else if ix = 1 ∧ ch = 69 then some (.Merge, false)
    else if ix = 1 ∧ ch = 45 then some (.MSearch, false)
    else if ix = 2 ∧ ch = 65 then some (.MKActivity, false)
    else if ix = 3 ∧ ch = 65 then some (.MKCalendar, false)
    else none
  else if mth = .Subscribe then
    if ix = 1 ∧ ch = 69 then some (.Search, false) else none
  else if ix = 1 ∧ mth = .Post then
    if ch = 82 then some (.PropFind, false)
    else if ch = 85 then some (.Put, false)
    else if ch = 65 then some (.Patch, false)
    else none
  else if ix = 2 then
    if mth = .Put then
      if ch = 82 then some (.Purge, false) else none
    else if mth = .Unlock then
      if ch = 83 then some (.Unsubscribe, false) else none
    else none
  else if ix = 4 ∧ mth = .PropFind ∧ ch = 80 then some (.PropPatch, false)
  else none

/-- Arm `State::ReqMethod`, `parser.rs` lines 628-709 (including the dead
`index == len` guard of lines 629-632 and the unconditional `index += 1` of
line 708). -/
def stepReqMethod (data : List Nat) (p : HttpParser) (ch idx : Nat) (m : Marks)
    (evs : List Event) : StepRes :=
  if idx = data.length then .ret { p with errno := some .InvalidMethod } idx evs
  else
    match reqMethodNext p.method p.index ch with
    | none => .ret { p with errno := some .InvalidMethod } idx evs
    | some (mth2, toUrl) =>
        .cont { p with method := mth2,
                       state := if toUrl then .ReqSpacesBeforeUrl else p.state,
                       index := p.index + 1 } false idx m evs

/-- Arm `State::ReqSpacesBeforeUrl`, `parser.rs` lines 710-723. -/
def stepReqSpacesBeforeUrl (p : HttpParser) (ch idx : Nat) (m : Marks)
    (evs : List Event) : StepRes :=
  if ch ≠ 32 then
    let m := { m with url_mark := setMark m.url_mark idx }
    let s0 := if p.method = .Connect then State.ReqServerStart else p.state
    let p := { p with state := parse_url_char p.strict s0 ch }
    if p.state = .Dead then .ret { p with errno := some .InvalidUrl } idx evs
    else .cont p false idx m evs
  else .cont p false idx m evs

/-- Arms `State::ReqSchema` through `State::ReqServerStart`, `parser.rs`
lines 724-742 (no whitespace allowed). -/
def stepUrlNoWs (p : HttpParser) (ch idx : Nat) (m : Marks)
    (evs : List Event) : StepRes :=
  if ch = 32 ∨ ch = 13 ∨ ch = 10 then
    .ret { p with errno := some .InvalidUrl } idx evs
  else
    let p := { p with state := parse_url_char p.strict p.state ch }
    if p.state = .Dead then .ret { p with errno := some .InvalidUrl } idx evs
    else .cont p false idx m evs

/-- Arms `State::ReqServer` through `State::ReqFragment`, `parser.rs`
lines 743-779. -/
def stepUrlMain (sink : Sink) (data : List Nat) (p : HttpParser) (ch idx : Nat)
    (m : Marks) (evs : List Event) : StepRes :=
  if ch = 32 then
    let p := { p with state := .ReqHttpStart }
    match m.url_mark with
    | some mk =>
        let piece := byteSlice data mk idx
        cbData (sink.on_url piece) .CBUrl p false idx (idx + 1)
          { m with url_mark := none } (evs ++ [Event.Url piece])
    | none => .cont p false idx m evs
  else if ch = 13 ∨ ch = 10 then
    let p := { p with http_version := ⟨0, 9⟩,
                      state := if ch = 13 then State.ReqLineAlmostDone
                               else State.HeaderFieldStart }
    match m.url_mark with
    | some mk =>
        let piece := byteSlice data mk idx
        cbData (sink.on_url piece) .CBUrl p false idx (idx + 1)
          { m with url_mark := none } (evs ++ [Event.Url piece])
    | none => .cont p false idx m evs
  else
    let p := { p with state := parse_url_char p.strict p.state ch }
    if p.state = .Dead then .ret { p with errno := some .InvalidUrl } idx evs
    else .cont p false idx m evs

/-- Arm `State::ResStatus`, `parser.rs` lines 568-582. -/
def stepResStatus (sink : Sink) (data : List Nat) (p : HttpParser) (ch idx : Nat)
    (m : Marks) (evs : List Event) : StepRes :=
  if ch = 13 then
    let p := { p with state := .ResLineAlmostDone }
    match m.status_mark with
    | some mk =>
        let piece := byteSlice data mk idx
        cbData (sink.on_status piece) .CBStatus p false idx (idx + 1)
          { m with status_mark := none } (evs ++ [Event.Status piece])
    | none => .cont p false idx m evs
  else if ch = 10 then
    let p := { p with state := .HeaderFieldStart }
    match m.status_mark with
    | some mk =>
        let piece := byteSlice data mk idx
        cbData (sink.on_status piece) .CBStatus p false idx (idx + 1)
          { m with status_mark := none } (evs ++ [Event.Status piece])
    | none => .cont p false idx m evs
  else .cont p false idx m evs

/-- Arm `State::HeaderFieldStart`, `parser.rs` lines 874-904. -/
def stepHeaderFieldStart (p : HttpParser) (ch idx : Nat) (m : Marks)
    (evs : List Event) : StepRes :=
  if ch = 13 then .cont { p with state := .HeadersAlmostDone } false idx m evs
  else if ch = 10 then
    -- bare LF: possibly the second of two plain newlines ending the headers
    .cont { p with state := .HeadersAlmostDone } true idx m evs
  else
    match token p.strict ch with
    | none => .ret { p with errno := some .InvalidHeaderToken } idx evs
    | some c =>
        let m := { m with header_field_mark := setMark m.header_field_mark idx }
        let hs : HeaderState :=
          if c = 99 then .C
          else if c = 112 then .MatchingProxyConnection
          else if c = 116 then .MatchingTransferEncoding
          else if c = 117 then .MatchingUpgrade
          else .General
        .cont { p with index := 0, state := .HeaderField, header_state := hs }
          false idx m evs

/-- Header-name keyword matcher of the `State::HeaderField` arm, `parser.rs`
lines 909-996, for a token byte `c` (raw byte `ch`). -/
def headerFieldStateStep (p : HttpParser) (ch c : Nat) : HttpParser :=
  match p.header_state with
  | .General => p
  | .C =>
      { p with index := p.index + 1,
               header_state := if c = 111 then .CO else .General }
  | .CO =>
      { p with index := p.index + 1,
               header_state := if c = 110 then .CON else .General }
  | .CON =>
      { p with index := p.index + 1,
               header_state := if c = 110 then .MatchingConnection
                               else if c = 116 then .MatchingContentLength
                               else .General }
  | .MatchingConnection =>
      let ix := p.index + 1
      { p with index := ix,
               header_state :=
                 if ix ≥ CONNECTION.length ∨ c ≠ CONNECTION.getD ix 0 then .General
                 else if ix = CONNECTION.length - 1 then .Connection
                 else .MatchingConnection }
  | .MatchingProxyConnection =>
      let ix := p.index + 1
      { p with index := ix,
               header_state :=
                 if ix ≥ PROXY_CONNECTION.length ∨ c ≠ PROXY_CONNECTION.getD ix 0 then .General
                 else if ix = PROXY_CONNECTION.length - 1 then .Connection
                 else .MatchingProxyConnection }
  | .MatchingContentLength =>
      let ix := p.index + 1
      { p with index := ix,
               header_state :=
                 if ix ≥ CONTENT_LENGTH.length ∨ c ≠ CONTENT_LENGTH.getD ix 0 then .General
                 else if ix = CONTENT_LENGTH.length - 1 then .ContentLength
                 else .MatchingContentLength }
  | .MatchingTransferEncoding =>
      let ix := p.index + 1
      { p with index := ix,
               header_state :=
                 if ix ≥ TRANSFER_ENCODING.length ∨ c ≠ TRANSFER_ENCODING.getD ix 0 then .General
                 else if ix = TRANSFER_ENCODING.length - 1 then .TransferEncoding
                 else .MatchingTransferEncoding }
  | .MatchingUpgrade =>
      let ix := p.index + 1
      { p with index := ix,
               header_state :=
                 if ix ≥ UPGRADE_KW.length ∨ c ≠ UPGRADE_KW.getD ix 0 then .General
                 else if ix = UPGRADE_KW.length - 1 then .Upgrade
                 else .MatchingUpgrade }
  | .Connection | .ContentLength | .TransferEncoding | .Upgrade =>
      if ch ≠ 32 then { p with header_state := .General } else p
  | _ => p  -- the source asserts these header states unreachable here (994)

/-- Arm `State::HeaderField`, `parser.rs` lines 905-1007. -/
def stepHeaderField (sink : Sink) (data : List Nat) (p : HttpParser)
    (ch idx : Nat) (m : Marks) (evs : List Event) : StepRes :=
  match token p.strict ch with
  | some c => .cont (headerFieldStateStep p ch c) false idx m evs
  | none =>
      if ch = 58 then
        let p := { p with state := .HeaderValueDiscardWs }
        match m.header_field_mark with
        | some mk =>
            let piece := byteSlice data mk idx
            cbData (sink.on_header_field piece) .CBHeaderField p false idx (idx + 1)
              { m with header_field_mark := none } (evs ++ [Event.HeaderField piece])
        | none => .cont p false idx m evs
      else .ret { p with errno := some .InvalidHeaderToken } idx evs

/-- Shared body of the arms `State::HeaderValueDiscardWs` (non-whitespace
byte) and `State::HeaderValueStart`, `parser.rs` lines 1018-1061. -/
def stepHeaderValueStart (p : HttpParser) (ch idx : Nat) (m : Marks)
    (evs : List Event) : StepRes :=
  let m := { m with header_value_mark := setMark m.header_value_mark idx }
  let p := { p with state := .HeaderValue, index := 0 }
  let c := lower ch
  match p.header_state with
  | .Upgrade =>
      .cont { p with flags := p.flags ||| Flags.UPGRADE, header_state := .General }
        false idx m evs
  | .TransferEncoding =>
      .cont { p with header_state :=
                if c = 99 then .MatchingTransferEncodingChunked else .General }
        false idx m evs
  | .ContentLength =>
      if ¬ is_num ch then .ret { p with errno := some .InvalidContentLength } idx evs
      else .cont { p with content_length := ch - 48 } false idx m evs
  | .Connection =>
      .cont { p with header_state :=
                if c = 107 then .MatchingConnectionKeepAlive
                else if c = 99 then .MatchingConnectionClose
                else .General }
        false idx m evs
  | _ => .cont { p with header_state := .General } false idx m evs

/-- Header-value keyword matcher of the `State::HeaderValue` arm for a
non-CR/LF byte, `parser.rs` lines 1077-1146; `none` encodes the
`InvalidContentLength` error returns of lines 1086-1100. -/
def headerValueInner (p : HttpParser) (ch c : Nat) : Option HttpParser :=
  match p.header_state with
  | .General => some p
  | .Connection | .TransferEncoding => some p
      -- the source asserts these unreachable here (parser.rs 1081-1083)
  | .ContentLength =>
      if ch = 32 then some p
      else if ¬ is_num ch then none
      else
        let t := (p.content_length * 10 + (ch - 48)) % U64_MOD
        if (ULLONG_MAX - 10) / 10 < p.content_length then none
        else some { p with content_length := t }
  | .MatchingTransferEncodingChunked =>
      let ix := p.index + 1
      some { p with index := ix,
                    header_state :=
                      if ix ≥ CHUNKED_KW.length ∨ c ≠ CHUNKED_KW.getD ix 0 then .General
                      else if ix = CHUNKED_KW.length - 1 then .TransferEncodingChunked
                      else .MatchingTransferEncodingChunked }
  | .MatchingConnectionKeepAlive =>
      let ix := p.index + 1
      some { p with index := ix,
                    header_state :=
                      if ix ≥ KEEP_ALIVE.length ∨ c ≠ KEEP_ALIVE.getD ix 0 then .General
                      else if ix = KEEP_ALIVE.length - 1 then .ConnectionKeepAlive
                      else .MatchingConnectionKeepAlive }
  | .MatchingConnectionClose =>
      let ix := p.index + 1
      some { p with index := ix,
                    header_state :=
                      if ix ≥ CLOSE.length ∨ c ≠ CLOSE.getD ix 0 then .General
                      else if ix = CLOSE.length - 1 then .ConnectionClose
                      else .MatchingConnectionClose }
  | .TransferEncodingChunked | .ConnectionKeepAlive | .ConnectionClose =>
      some (if ch ≠ 32 then { p with header_state := .General } else p)
  | _ => some { p with state := .HeaderValue, header_state := .General }

/-- Arm `State::HeaderValue`, `parser.rs` lines 1062-1148. -/
def stepHeaderValue (sink : Sink) (data : List Nat) (p : HttpParser)
    (ch idx : Nat) (m : Marks) (evs : List Event) : StepRes :=
  if ch = 13 then
    let p := { p with state := .HeaderAlmostDone }
    match m.header_value_mark with
    | some mk =>
        let piece := byteSlice data mk idx
        cbData (sink.on_header_value piece) .CBHeaderValue p false idx (idx + 1)
          { m with header_value_mark := none } (evs ++ [Event.HeaderValue piece])
    | none => .cont p false idx m evs
  else if ch = 10 then
    let p := { p with state := .HeaderAlmostDone }
    match m.header_value_mark with
    | some mk =>
        let piece := byteSlice data mk idx
        cbData (sink.on_header_value piece) .CBHeaderValue p true idx idx
          { m with header_value_mark := none } (evs ++ [Event.HeaderValue piece])
    | none => .cont p true idx m evs
  else
    match headerValueInner p ch (lower ch) with
    | none => .ret { p with errno := some .InvalidContentLength } idx evs
    | some p => .cont p false idx m evs

/-- Arm `State::HeaderValueLws`, `parser.rs` lines 1154-1176. -/
def stepHeaderValueLws (p : HttpParser) (ch idx : Nat) (m : Marks)
    (evs : List Event) : StepRes :=
  if ch = 32 ∨ ch = 9 then
    .cont { p with state := .HeaderValueStart } true idx m evs
  else
    let p :=
      match p.header_state with
      | .ConnectionKeepAlive =>
          { p with flags := p.flags ||| Flags.CONNECTION_KEEP_ALIVE }
      | .ConnectionClose => { p with flags := p.flags ||| Flags.CONNECTION_CLOSE }
      | .TransferEncodingChunked => { p with flags := p.flags ||| Flags.CHUNKED }
      | _ => p
    .cont { p with state := .HeaderFieldStart } true idx m evs

/-- Arm `State::HeaderValueDiscardLws`, `parser.rs` lines 1181-1194. -/
def stepHeaderValueDiscardLws (sink : Sink) (data : List Nat) (p : HttpParser)
    (ch idx : Nat) (m : Marks) (evs : List Event) : StepRes :=
  if ch = 32 ∨ ch = 9 then
    .cont { p with state := .HeaderValueDiscardWs } false idx m evs
  else
    -- header value was empty
    let m := { m with header_value_mark := setMark m.header_value_mark idx }
    let p := { p with state := .HeaderFieldStart }
    match m.header_value_mark with
    | some mk =>
        let piece := byteSlice data mk idx
        cbData (sink.on_header_value piece) .CBHeaderValue p true idx idx
          { m with header_value_mark := none } (evs ++ [Event.HeaderValue piece])
    | none => .cont p true idx m evs

/-- Arm `State::HeadersAlmostDone`, `parser.rs` lines 1195-1240. -/
def stepHeadersAlmostDone (sink : Sink) (p : HttpParser) (ch idx : Nat)
    (m : Marks) (evs : List Event) : StepRes :=
  if p.strict ∧ ch ≠ 10 then .ret { p with errno := some .Strict } idx evs
  else if p.flags &&& Flags.TRAILING ≠ 0 then
    -- end of a chunked request
    let p := { p with state := new_message p }
    let evs := evs ++ [Event.MessageComplete]
    if sink.on_message_complete then .cont p false idx m evs
    else .ret { p with errno := some .CBMessageComplete } (idx + 1) evs
  else
    let p := { p with state := State.HeadersDone,
                      upgrade := decide (p.flags &&& Flags.UPGRADE ≠ 0) ||
                                 decide (p.method = HttpMethod.Connect) }
    let evs := evs ++ [Event.HeadersComplete]
    match sink.on_headers_complete with
    | some .Nothing => .cont p true idx m evs
    | some .SkipBody =>
        .cont { p with flags := p.flags ||| Flags.SKIPBODY } true idx m evs
    | none => .ret { p with errno := some .CBHeadersComplete } idx evs

/-- New-message transition plus `on_message_complete` invocation used by
several arms (`parser.rs` lines 1257-1264, 1269-1277, 1284-1291,
1337-1345). -/
def msgCompleteTo (sink : Sink) (p : HttpParser) (retIdx curIdx : Nat)
    (m : Marks) (evs : List Event) : StepRes :=
  let p := { p with state := new_message p }
  let evs := evs ++ [Event.MessageComplete]
  if sink.on_message_complete then .cont p false curIdx m evs
  else .ret { p with errno := some .CBMessageComplete } retIdx evs

/-- Arm `State::HeadersDone`, `parser.rs` lines 1241-1298: the body framing
decision. -/
def stepHeadersDone (sink : Sink) (p : HttpParser) (ch idx : Nat) (m : Marks)
    (evs : List Event) : StepRes :=
  if p.strict ∧ ch ≠ 10 then .ret { p with errno := some .Strict } idx evs
  else
    let p := { p with nread := 0 }
    if p.upgrade then
      -- exit, the rest of the connection is in a different protocol
      let p := { p with state := new_message p }
      let evs := evs ++ [Event.MessageComplete]
      if sink.on_message_complete then .ret p (idx + 1) evs
      else .ret { p with errno := some .CBMessageComplete } (idx + 1) evs
    else if p.flags &&& Flags.SKIPBODY ≠ 0 then
      msgCompleteTo sink p (idx + 1) idx m evs
    else if p.flags &&& Flags.CHUNKED ≠ 0 then
      -- chunked encoding: ignore the Content-Length header
      .cont { p with state := .ChunkSizeStart } false idx m evs
    else if p.content_length = 0 then
      -- Content-Length header given but zero
      msgCompleteTo sink p (idx + 1) idx m evs
    else if p.content_length ≠ ULLONG_MAX then
      -- Content-Length header given and non-zero
      .cont { p with state := .BodyIdentity } false idx m evs
    else if p.tp = .Request ∨ ¬ http_message_needs_eof p then
      -- assume content-length 0, read the next message
      msgCompleteTo sink p (idx + 1) idx m evs
    else
      -- read body until EOF
      .cont { p with state := .BodyIdentityEof } false idx m evs

/-- Arm `State::BodyIdentity`, `parser.rs` lines 1299-1331. -/
def stepBodyIdentity (sink : Sink) (data : List Nat) (p : HttpParser)
    (idx : Nat) (m : Marks) (evs : List Event) : StepRes :=
  let to_read := min p.content_length (data.length - idx)
  let m := { m with body_mark := setMark m.body_mark idx }
  let p := { p with content_length := p.content_length - to_read }
  let idx := idx + (to_read - 1)
  if p.content_length = 0 then
    let p := { p with state := .MessageDone }
    match m.body_mark with
    | some mk =>
        let piece := byteSlice data mk (idx + 1)
        cbData (sink.on_body piece) .CBBody p true idx idx
          { m with body_mark := none } (evs ++ [Event.Body piece])
    | none => .cont p true idx m evs
  else .cont p false idx m evs

/-- Arm `State::BodyIdentityEof`, `parser.rs` lines 1333-1336. -/
def stepBodyIdentityEof (data : List Nat) (p : HttpParser) (idx : Nat)
    (m : Marks) (evs : List Event) : StepRes :=
  let m := { m with body_mark := setMark m.body_mark idx }
  .cont p false (data.length - 1) m evs

/-- Arm `State::ChunkSizeStart`, `parser.rs` lines 1346-1358. -/
def stepChunkSizeStart (p : HttpParser) (ch idx : Nat) (m : Marks)
    (evs : List Event) : StepRes :=
  match UNHEX ch with
  | none => .ret { p with errno := some .InvalidChunkSize } idx evs
  | some v => .cont { p with content_length := v, state := .ChunkSize } false idx m evs

/-- Arm `State::ChunkSize`, `parser.rs` lines 1359-1387. -/
def stepChunkSize (p : HttpParser) (ch idx : Nat) (m : Marks)
    (evs : List Event) : StepRes :=
  if ch = 13 then .cont { p with state := .ChunkSizeAlmostDone } false idx m evs
  else
    match UNHEX ch with
    | none =>
        if ch = 59 ∨ ch = 32 then
          .cont { p with state := .ChunkParameters } false idx m evs
        else .ret { p with errno := some .InvalidChunkSize } idx evs
    | some v =>
        let t := (p.content_length * 16 + v) % U64_MOD
        if (ULLONG_MAX - 16) / 16 < p.content_length then
          .ret { p with errno := some .InvalidContentLength } idx evs
        else .cont { p with content_length := t } false idx m evs

/-- Arm `State::ChunkParameters`, `parser.rs` lines 1388-1394. -/
def stepChunkParameters (p : HttpParser) (ch idx : Nat) (m : Marks)
    (evs : List Event) : StepRes :=
  if ch = 13 then .cont { p with state := .ChunkSizeAlmostDone } false idx m evs
  else .cont p false idx m evs

/-- Arm `State::ChunkSizeAlmostDone`, `parser.rs` lines 1395-1407. -/
def stepChunkSizeAlmostDone (p : HttpParser) (ch idx : Nat) (m : Marks)
    (evs : List Event) : StepRes :=
  if p.strict ∧ ch ≠ 10 then .ret { p with errno := some .Strict } idx evs
  else
    let p := { p with nread := 0 }
    if p.content_length = 0 then
      .cont { p with flags := p.flags ||| Flags.TRAILING,
                     state := .HeaderFieldStart } false idx m evs
    else .cont { p with state := .ChunkData } false idx m evs

/-- Arm `State::ChunkData`, `parser.rs` lines 1408-1424. -/
def stepChunkData (data : List Nat) (p : HttpParser) (idx : Nat) (m : Marks)
    (evs : List Event) : StepRes :=
  let to_read := min p.content_length (data.length - idx)
  let m := { m with body_mark := setMark m.body_mark idx }
  let p := { p with content_length := p.content_length - to_read }
  let idx := idx + (to_read - 1)
  if p.content_length = 0 then
    .cont { p with state := .ChunkDataAlmostDone } false idx m evs
  else .cont p false idx m evs

/-- Arm `State::ChunkDataAlmostDone`, `parser.rs` lines 1425-1435. -/
def stepChunkDataAlmostDone (sink : Sink) (data : List Nat) (p : HttpParser)
    (ch idx : Nat) (m : Marks) (evs : List Event) : StepRes :=
  if p.strict ∧ ch ≠ 13 then .ret { p with errno := some .Strict } idx evs
  else
    let p := { p with state := .ChunkDataDone }
    match m.body_mark with
    | some mk =>
        let piece := byteSlice data mk idx
        cbData (sink.on_body piece) .CBBody p false idx (idx + 1)
          { m with body_mark := none } (evs ++ [Event.Body piece])
    | none => .cont p false idx m evs

/-- Arm `State::ChunkDataDone`, `parser.rs` lines 1436-1441. -/
def stepChunkDataDone (p : HttpParser) (ch idx : Nat) (m : Marks)
    (evs : List Event) : StepRes :=
  if p.strict ∧ ch ≠ 10 then .ret { p with errno := some .Strict } idx evs
  else .cont { p with nread := 0, state := .ChunkSizeStart } false idx m evs

/-- One pass of the state dispatch of `execute` for the current byte `ch` at
offset `idx`: the big `match self.state` of `parser.rs` lines 392-1447
(one iteration of the inner retry loop). -/
def stepByte (sink : Sink) (data : List Nat) (p : HttpParser) (ch idx : Nat)
    (m : Marks) (evs : List Event) : StepRes :=
  match p.state with
  | .Dead =>
      if ch ≠ 13 ∧ ch ≠ 10 then
        .ret { p with errno := some .ClosedConnection } idx evs
      else .cont p false idx m evs
  | .StartReqOrRes => stepStartReqOrRes sink p ch idx m evs
  | .ResOrRespH =>
      if ch = 84 then
        .cont { p with tp := .Response, state := .ResHT } false idx m evs
      else if ch ≠ 69 then .ret { p with errno := some .InvalidConstant } idx evs
      else
        .cont { p with tp := .Request, method := .Head, index := 2,
                       state := .ReqMethod } false idx m evs
  | .StartRes => stepStartRes sink p ch idx m evs
  | .ResH =>
      if p.strict ∧ ch ≠ 84 then .ret { p with errno := some .Strict } idx evs
      else .cont { p with state := .ResHT } false idx m evs
  | .ResHT =>
      if p.strict ∧ ch ≠ 84 then .ret { p with errno := some .Strict } idx evs
      else .cont { p with state := .ResHTT } false idx m evs
  | .ResHTT =>
      if p.strict ∧ ch ≠ 80 then .ret { p with errno := some .Strict } idx evs
      else .cont { p with state := .ResHTTP } false idx m evs
  | .ResHTTP =>
      if p.strict ∧ ch ≠ 47 then .ret { p with errno := some .Strict } idx evs
      else .cont { p with state := .ResFirstHttpMajor } false idx m evs
  | .ResFirstHttpMajor =>
      if ch < 48 ∨ 57 < ch then
        .ret { p with errno := some .InvalidVersion } idx evs
      else
        .cont { p with http_version := { p.http_version with major := ch - 48 },
                       state := .ResHttpMajor } false idx m evs
  | .ResHttpMajor =>
      if ch = 46 then .cont { p with state := .ResFirstHttpMinor } false idx m evs
      else if ¬ is_num ch then .ret { p with errno := some .InvalidVersion } idx evs
      else
        let mj := (p.http_version.major * 10 + (ch - 48)) % 256
        let p := { p with http_version := { p.http_version with major := mj } }
        if 99 < mj then .ret { p with errno := some .InvalidVersion } idx evs
        else .cont p false idx m evs
  | .ResFirstHttpMinor =>
      if ¬ is_num ch then .ret { p with errno := some .InvalidVersion } idx evs
      else
        .cont { p with http_version := { p.http_version with minor := ch - 48 },
                       state := .ResHttpMinor } false idx m evs
  | .ResHttpMinor =>
      if ch = 32 then .cont { p with state := .ResFirstStatusCode } false idx m evs
      else if ¬ is_num ch then .ret { p with errno := some .InvalidVersion } idx evs
      else
        let mi := (p.http_version.minor * 10 + (ch - 48)) % 256
        let p := { p with http_version := { p.http_version with minor := mi } }
        if 99 < mi then .ret { p with errno := some .InvalidVersion } idx evs
        else .cont p false idx m evs
  | .ResFirstStatusCode =>
      if is_num ch then
        .cont { p with status_code := ch - 48, state := .ResStatusCode } false idx m evs
      else if ch ≠ 32 then .ret { p with errno := some .InvalidStatus } idx evs
      else .cont p false idx m evs
  | .ResStatusCode =>
      if ¬ is_num ch then
        if ch = 32 then .cont { p with state := .ResStatusStart } false idx m evs
        else if ch = 13 then .cont { p with state := .ResLineAlmostDone } false idx m evs
        else if ch = 10 then .cont { p with state := .HeaderFieldStart } false idx m evs
        else .ret { p with errno := some .InvalidStatus } idx evs
      else
        let sc := (p.status_code * 10 + (ch - 48)) % 65536
        let p := { p with status_code := sc }
        if 999 < sc then .ret { p with errno := some .InvalidStatus } idx evs
        else .cont p false idx m evs
  | .ResStatusStart =>
      if ch = 13 then .cont { p with state := .ResLineAlmostDone } false idx m evs
      else if ch = 10 then .cont { p with state := .HeaderFieldStart } false idx m evs
      else
        let m := { m with status_mark := setMark m.status_mark idx }
        .cont { p with state := .ResStatus, index := 0 } false idx m evs
  | .ResStatus => stepResStatus sink data p ch idx m evs
  | .ResLineAlmostDone =>
      if p.strict ∧ ch ≠ 10 then .ret { p with errno := some .Strict } idx evs
      else .cont { p with state := .HeaderFieldStart } false idx m evs
  | .StartReq => stepStartReq sink p ch idx m evs
  | .ReqMethod => stepReqMethod data p ch idx m evs
  | .ReqSpacesBeforeUrl => stepReqSpacesBeforeUrl p ch idx m evs
  | .ReqSchema | .ReqSchemaSlash | .ReqSchemaSlashSlash | .ReqServerStart =>
      stepUrlNoWs p ch idx m evs
  | .ReqServer | .ReqServerWithAt | .ReqPath | .ReqQueryStringStart
  | .ReqQueryString | .ReqFragmentStart | .ReqFragment =>
      stepUrlMain sink data p ch idx m evs
  | .ReqHttpStart =>
      if ch = 72 then .cont { p with state := .ReqHttpH } false idx m evs
      else if ch = 32 then .cont p false idx m evs
      else .ret { p with errno := some .InvalidConstant } idx evs
  | .ReqHttpH =>
      if p.strict ∧ ch ≠ 84 then .ret { p with errno := some .Strict } idx evs
      else .cont { p with state := .ReqHttpHT } false idx m evs
  | .ReqHttpHT =>
      if p.strict ∧ ch ≠ 84 then .ret { p with errno := some .Strict } idx evs
      else .cont { p with state := .ReqHttpHTT } false idx m evs
  | .ReqHttpHTT =>
      if p.strict ∧ ch ≠ 80 then .ret { p with errno := some .Strict } idx evs
      else .cont { p with state := .ReqHttpHTTP } false idx m evs
  | .ReqHttpHTTP =>
      if p.strict ∧ ch ≠ 47 then .ret { p with errno := some .Strict } idx evs
      else .cont { p with state := .ReqFirstHttpMajor } false idx m evs
  | .ReqFirstHttpMajor =>
      if ch < 49 ∨ 57 < ch then
        .ret { p with errno := some .InvalidVersion } idx evs
      else
        .cont { p with http_version := { p.http_version with major := ch - 48 },
                       state := .ReqHttpMajor } false idx m evs
  | .ReqHttpMajor =>
      if ch = 46 then .cont { p with state := .ReqFirstHttpMinor } false idx m evs
      else if ¬ is_num ch then .ret { p with errno := some .InvalidVersion } idx evs
      else
        let mj := (p.http_version.major * 10 + (ch - 48)) % 256
        let p := { p with http_version := { p.http_version with major := mj } }
        if 99 < mj then .ret { p with errno := some .InvalidVersion } idx evs
        else .cont p false idx m evs
  | .ReqFirstHttpMinor =>
      if ¬ is_num ch then .ret { p with errno := some .InvalidVersion } idx evs
      else
        .cont { p with http_version := { p.http_version with minor := ch - 48 },
                       state := .ReqHttpMinor } false idx m evs
  | .ReqHttpMinor =>
      if ch = 13 then .cont { p with state := .ReqLineAlmostDone } false idx m evs
      else if ch = 10 then .cont { p with state := .HeaderFieldStart } false idx m evs
      else if ¬ is_num ch then .ret { p with errno := some .InvalidVersion } idx evs
      else
        let mi := (p.http_version.minor * 10 + (ch - 48)) % 256
        let p := { p with http_version := { p.http_version with minor := mi } }
        if 99 < mi then .ret { p with errno := some .InvalidVersion } idx evs
        else .cont p false idx m evs
  | .ReqLineAlmostDone =>
      if ch ≠ 10 then .ret { p with errno := some .LFExpected } idx evs
      else .cont { p with state := .HeaderFieldStart } false idx m evs
  | .HeaderFieldStart => stepHeaderFieldStart p ch idx m evs
  | .HeaderField => stepHeaderField sink data p ch idx m evs
  | .HeaderValueDiscardWs =>
      if ch = 32 ∨ ch = 9 then .cont p false idx m evs
      else if ch = 13 then
        .cont { p with state := .HeaderValueDiscardWsAlmostDone } false idx m evs
      else if ch = 10 then
        .cont { p with state := .HeaderValueDiscardLws } false idx m evs
      else stepHeaderValueStart p ch idx m evs
  | .HeaderValueStart => stepHeaderValueStart p ch idx m evs
  | .HeaderValue => stepHeaderValue sink data p ch idx m evs
  | .HeaderAlmostDone =>
      if p.strict ∧ ch ≠ 10 then .ret { p with errno := some .Strict } idx evs
      else .cont { p with state := .HeaderValueLws } false idx m evs
  | .HeaderValueLws => stepHeaderValueLws p ch idx m evs
  | .HeaderValueDiscardWsAlmostDone =>
      if p.strict ∧ ch ≠ 10 then .ret { p with errno := some .Strict } idx evs
      else .cont { p with state := .HeaderValueDiscardLws } false idx m evs
  | .HeaderValueDiscardLws => stepHeaderValueDiscardLws sink data p ch idx m evs
  | .HeadersAlmostDone => stepHeadersAlmostDone sink p ch idx m evs
  | .HeadersDone => stepHeadersDone sink p ch idx m evs
  | .BodyIdentity => stepBodyIdentity sink data p idx m evs
  | .BodyIdentityEof => stepBodyIdentityEof data p idx m evs
  | .MessageDone => msgCompleteTo sink p (idx + 1) idx m evs
  | .ChunkSizeStart => stepChunkSizeStart p ch idx m evs
  | .ChunkSize => stepChunkSize p ch idx m evs
  | .ChunkParameters => stepChunkParameters p ch idx m evs
  | .ChunkSizeAlmostDone => stepChunkSizeAlmostDone p ch idx m evs
  | .ChunkData => stepChunkData data p idx m evs
  | .ChunkDataAlmostDone => stepChunkDataAlmostDone sink data p ch idx m evs
  | .ChunkDataDone => stepChunkDataDone p ch idx m evs

/-- The inner retry loop of `execute`, `parser.rs` lines 390-1452: repeat the
state dispatch on the same byte while the retry flag is set.  Retry chains in
the machine have length at most five, so the fuel of 8 used by `executeLoop`
is never exhausted. -/
def retryLoop : Nat → Sink → List Nat → HttpParser → Nat → Nat → Marks →
    List Event → StepRes
  | 0, _, _, p, _, idx, m, evs => .cont p false idx m evs
  | fuel + 1, sink, data, p, ch, idx, m, evs =>
    match stepByte sink data p ch idx m evs with
    | .ret p v evs => .ret p v evs
    | .cont p retry idx m evs =>
        if retry then retryLoop fuel sink data p ch idx m evs
        else .cont p false idx m evs

/-- Flush of a still-open status mark at the end of the data, `parser.rs`
lines 1482-1485, and the final `return len` of line 1485. -/
def finStatus (sink : Sink) (data : List Nat) (p : HttpParser) (idx : Nat)
    (m : Marks) (evs : List Event) : ExecResult :=
  match m.status_mark with
  | some mk =>
      let piece := byteSlice data mk idx
      let evs := evs ++ [Event.Status piece]
      if sink.on_status piece then ⟨p, data.length, evs⟩
      else ⟨{ p with errno := some .CBStatus }, idx, evs⟩
  | none => ⟨p, data.length, evs⟩

/-- Flush of a still-open body mark at the end of the data, `parser.rs`
lines 1479-1481. -/
def finBody (sink : Sink) (data : List Nat) (p : HttpParser) (idx : Nat)
    (m : Marks) (evs : List Event) : ExecResult :=
  match m.body_mark with
  | some mk =>
      let piece := byteSlice data mk idx
      let evs := evs ++ [Event.Body piece]
      if sink.on_body piece then
        finStatus sink data p idx { m with body_mark := none } evs
      else ⟨{ p with errno := some .CBBody }, idx, evs⟩
  | none => finStatus sink data p idx m evs

/-- Flush of a still-open url mark at the end of the data, `parser.rs`
lines 1476-1478. -/
def finUrl (sink : Sink) (data : List Nat) (p : HttpParser) (idx : Nat)
    (m : Marks) (evs : List Event) : ExecResult :=
  match m.url_mark with
  | some mk =>
      let piece := byteSlice data mk idx
      let evs := evs ++ [Event.Url piece]
      if sink.on_url piece then
        finBody sink data p idx { m with url_mark := none } evs
      else ⟨{ p with errno := some .CBUrl }, idx, evs⟩
  | none => finBody sink data p idx m evs

/-- Flush of a still-open header-value mark at the end of the data,
`parser.rs` lines 1473-1475. -/
def finHeaderValue (sink : Sink) (data : List Nat) (p : HttpParser) (idx : Nat)
    (m : Marks) (evs : List Event) : ExecResult :=
  match m.header_value_mark with
  | some mk =>
      let piece := byteSlice data mk idx
      let evs := evs ++ [Event.HeaderValue piece]
      if sink.on_header_value piece then
        finUrl sink data p idx { m with header_value_mark := none } evs
      else ⟨{ p with errno := some .CBHeaderValue }, idx, evs⟩
  | none => finUrl sink data p idx m evs

/-- End-of-data flush of any still-open mark, `parser.rs` lines 1456-1485,
starting with the header-field mark (lines 1470-1472). -/
def finalizeMarks (sink : Sink) (data : List Nat) (p : HttpParser) (idx : Nat)
    (m : Marks) (evs : List Event) : ExecResult :=
  match m.header_field_mark with
  | some mk =>
      let piece := byteSlice data mk idx
      let evs := evs ++ [Event.HeaderField piece]
      if sink.on_header_field piece then
        finHeaderValue sink data p idx { m with header_field_mark := none } evs
      else ⟨{ p with errno := some .CBHeaderField }, idx, evs⟩
  | none => finHeaderValue sink data p idx m evs

/-- The outer byte loop of `execute`, `parser.rs` lines 365-1454, including
the `nread` increment and header-overflow check of lines 367-385.  `rest` is
the suffix `data[idx..]` still to be processed; the skip performed by the
body arms (`index += to_read - 1`) is realised by dropping the corresponding
number of bytes from `rest`. -/
def executeLoop (sink : Sink) (data : List Nat) (p : HttpParser) (idx : Nat)
    (rest : List Nat) (m : Marks) (evs : List Event) : ExecResult :=
  match rest with
  | [] => finalizeMarks sink data p idx m evs
  | ch :: rtail =>
    let p1 := if stateLeHeadersDone p.state then { p with nread := p.nread + 1 } else p
    if stateLeHeadersDone p.state ∧ HTTP_MAX_HEADER_SIZE < p1.nread then
      ⟨{ p1 with errno := some .HeaderOverflow }, idx, evs⟩
    else
      match retryLoop 8 sink data p1 ch idx m evs with
      | .ret p2 v evs2 => ⟨p2, v, evs2⟩
      | .cont p2 _ idx2 m2 evs2 =>
          executeLoop sink data p2 (idx2 + 1) (List.drop (idx2 - idx) rtail) m2 evs2
termination_by rest.length
decreasing_by simp [List.length_drop]; omega

/-- States for which the url mark is pre-seeded on chunk entry, `parser.rs`
lines 349-360. -/
def isUrlState : State → Bool
  | .ReqPath | .ReqSchema | .ReqSchemaSlash | .ReqSchemaSlashSlash
  | .ReqServerStart | .ReqServer | .ReqServerWithAt | .ReqQueryStringStart
  | .ReqQueryString | .ReqFragmentStart | .ReqFragment => true
  | _ => false

/-- The `execute` entry point, `parser.rs` lines 306-1486: sticky-error check
(315-317), zero-length EOF dispatch (319-341), mark pre-seeding (343-363) and
the byte loop. -/
def execute (p : HttpParser) (sink : Sink) (data : List Nat) : ExecResult :=
  if p.errno.isSome then ⟨p, 0, []⟩
  else if data.length = 0 then
    match p.state with
    | .BodyIdentityEof =>
        let evs := [Event.MessageComplete]
        if sink.on_message_complete then ⟨p, 0, evs⟩
        else ⟨{ p with errno := some .CBMessageComplete }, 0, evs⟩
    | .Dead | .StartReqOrRes | .StartReq | .StartRes => ⟨p, 0, []⟩
    | _ => ⟨{ p with errno := some .InvalidEofState }, 1, []⟩
  else
    let m : Marks :=
      { header_field_mark := if p.state = .HeaderField then some 0 else none
        header_value_mark := if p.state = .HeaderValue then some 0 else none
        url_mark := if isUrlState p.state then some 0 else none
        body_mark := none
        status_mark := if p.state = .ResStatus then some 0 else none }
    executeLoop sink data p 0 data m []

/-- Spec-side reading of the version condition of `http_should_keep_alive`:
the HTTP version is 1.1 or later, compared as a (major, minor) pair. -/
def specVersionAtLeast11 (v : HttpVersion) : Prop :=
  1 < v.major ∨ (v.major = 1 ∧ 1 ≤ v.minor)

instance (v : HttpVersion) : Decidable (specVersionAtLeast11 v) := by
  unfold specVersionAtLeast11; infer_instance

/-- A request-mode context whose HTTP version is 2.0: later than 1.1 as a
version, yet rejected by the `major > 0 && minor > 0` test of the code. -/
def p20cx : HttpParser := { HttpParser.new .Request with http_version := ⟨2, 0⟩ }

/-- Bytes of the 19-byte chunk head `GET / HTTP/1.1\x0d\x0aX: ` used by the
header-overflow scenario. -/
def c5head : List Nat := [71,69,84,32,47,32,72,84,84,80,47,49,46,49,13,10,88,58,32]

/-- Bytes of the closing `\x0d\x0a\x0d\x0a` of the header-overflow
scenario. -/
def c5tail : List Nat := [13,10,13,10]

/-- The exact input of the spec overflow scenario: the 19-byte head, 81000
bytes `a`, and the closing double CRLF; 81023 bytes in total. -/
def c5dataA : List Nat := c5head ++ (List.replicate 81000 97 ++ c5tail)

/-- The widened overflow input: the same head followed by 82000 bytes `a`,
whose header block does exceed `HTTP_MAX_HEADER_SIZE`. -/
def c5dataB : List Nat := c5head ++ (List.replicate 82000 97 ++ c5tail)

/-- Parser context reached after the 19-byte head of the overflow scenario:
discarding the whitespace after `X:`, with 19 bytes counted. -/
def p19 : HttpParser :=
  ⟨⟨1, 1⟩, none, 0, .Get, false, true, .Request, .HeaderValueDiscardWs, .General,
   0, 0, 19, ULLONG_MAX⟩

/-- Bytes of the response status line `HTTP/1.1 200 OK\x0d\x0a`, 17 bytes. -/
def statusLineBytes : List Nat := [72,84,84,80,47,49,46,49,32,50,48,48,32,79,75,13,10]

/-- Bytes of `GET / HTTP/1.1\x0a\x0a`: a complete request whose line
terminators are bare LF. -/
def bareLfBytes : List Nat := [71,69,84,32,47,32,72,84,84,80,47,49,46,49,10,10]

/-- Parser context sitting in the middle of a Content-Length value: state
`HeaderValue`, header state `ContentLength`, value accumulated so far 7. -/
def pContentLength : HttpParser :=
  ⟨⟨1, 1⟩, none, 0, .Get, false, true, .Request, .HeaderValue, .ContentLength,
   0, 0, 20, 7⟩

/-- Request-mode context whose state is `HeadersDone` (blank line reached). -/
def pHeadersDone : HttpParser := { HttpParser.new .Request with state := .HeadersDone }

/-- Request-mode context in the middle of a header value (an EOF here is
invalid). -/
def pMidHeaders : HttpParser := { HttpParser.new .Request with state := .HeaderValue }

/-- Response-mode context reading a body until EOF. -/
def pBodyEof : HttpParser :=
  { HttpParser.new .Response with state := .BodyIdentityEof, tp := .Response }

/-- Request-mode context carrying a sticky error. -/
def pStickyErr : HttpParser := { HttpParser.new .Request with errno := some .Strict }

/-- One loop iteration on byte `a` (97) in state `HeaderValue` with header
state `General`: only `nread` advances. -/
theorem headerValueGeneralStep (sink : Sink) (data : List Nat)
    (ver : HttpVersion) (err : Option HttpErrno) (sc : Nat) (mth : HttpMethod)
    (upg str : Bool) (tp : HttpParserType) (fl ix k cl idx : Nat)
    (rtail : List Nat) (m : Marks) (evs : List Event)
    (h : k + 1 ≤ HTTP_MAX_HEADER_SIZE) :
    executeLoop sink data ⟨ver, err, sc, mth, upg, str, tp, .HeaderValue, .General, fl, ix, k, cl⟩ idx (97 :: rtail) m evs
    = executeLoop sink data ⟨ver, err, sc, mth, upg, str, tp, .HeaderValue, .General, fl, ix, k + 1, cl⟩ (idx + 1) rtail m evs := by
  have hcond : ¬ (HTTP_MAX_HEADER_SIZE < k + 1) := by
    simp [HTTP_MAX_HEADER_SIZE] at h ⊢; omega
  rw [executeLoop]
  simp [stateLeHeadersDone, State.toNat, hcond, retryLoop, stepByte,
        stepHeaderValue, headerValueInner, lower]

/-- A run of `n` bytes `a` inside a header value advances `nread` and the
cursor by `n` and changes nothing else, provided the header-size limit is not
reached. -/
theorem run_as (sink : Sink) (data : List Nat)
    (ver : HttpVersion) (err : Option HttpErrno) (sc : Nat) (mth : HttpMethod)
    (upg str : Bool) (tp : HttpParserType) (fl ix cl : Nat) (n : Nat) :
    ∀ (k idx : Nat) (rest : List Nat) (m : Marks) (evs : List Event),
    k + n ≤ HTTP_MAX_HEADER_SIZE →
    executeLoop sink data ⟨ver, err, sc, mth, upg, str, tp, .HeaderValue, .General, fl, ix, k, cl⟩ idx (List.replicate n 97 ++ rest) m evs
    = executeLoop sink data ⟨ver, err, sc, mth, upg, str, tp, .HeaderValue, .General, fl, ix, k + n, cl⟩ (idx + n) rest m evs := by
  induction n with
  | zero => intro k idx rest m evs _; simp
  | succ n ih =>
      intro k idx rest m evs h
      rw [List.replicate_succ, List.cons_append,
          headerValueGeneralStep sink data ver err sc mth upg str tp fl ix k cl idx _ m evs (by omega),
          ih (k + 1) (idx + 1) rest m evs (by omega)]
      have h1 : k + 1 + n = k + (n + 1) := by omega
      have h2 : idx + 1 + n = idx + (n + 1) := by omega
      rw [h1, h2]

/-- A run of bytes `a` inside a header value that drives `nread` past
`HTTP_MAX_HEADER_SIZE` halts with `HeaderOverflow` at the byte on which the
limit is first exceeded. -/
theorem run_as_overflow (sink : Sink) (data : List Nat)
    (ver : HttpVersion) (err : Option HttpErrno) (sc : Nat) (mth : HttpMethod)
    (upg str : Bool) (tp : HttpParserType) (fl ix cl : Nat) (n : Nat) :
    ∀ (k idx : Nat) (rest : List Nat) (m : Marks) (evs : List Event),
    k ≤ HTTP_MAX_HEADER_SIZE → HTTP_MAX_HEADER_SIZE < k + n →
    executeLoop sink data ⟨ver, err, sc, mth, upg, str, tp, .HeaderValue, .General, fl, ix, k, cl⟩ idx (List.replicate n 97 ++ rest) m evs
    = ⟨⟨ver, some .HeaderOverflow, sc, mth, upg, str, tp, .HeaderValue, .General, fl, ix, HTTP_MAX_HEADER_SIZE + 1, cl⟩,
       idx + (HTTP_MAX_HEADER_SIZE - k), evs⟩ := by
  induction n with
  | zero => intro k idx rest m evs h1 h2; omega
  | succ n ih =>
      intro k idx rest m evs h1 h2
      rw [List.replicate_succ, List.cons_append]
      by_cases hk : k = HTTP_MAX_HEADER_SIZE
      · subst hk
        rw [executeLoop]
        simp [stateLeHeadersDone, State.toNat, HTTP_MAX_HEADER_SIZE]
      · rw [headerValueGeneralStep sink data ver err sc mth upg str tp fl ix k cl idx _ m evs (by omega),
            ih (k + 1) (idx + 1) rest m evs (by omega) (by omega)]
        have h3 : idx + 1 + (HTTP_MAX_HEADER_SIZE - (k + 1)) = idx + (HTTP_MAX_HEADER_SIZE - k) := by omega
        rw [h3]

/-- One loop iteration on byte `a` in state `HeaderValueDiscardWs`: the
header-value mark opens, the state moves to `HeaderValue`. -/
theorem discardWsStep (sink : Sink) (data : List Nat)
    (ver : HttpVersion) (err : Option HttpErrno) (sc : Nat) (mth : HttpMethod)
    (upg str : Bool) (tp : HttpParserType) (fl ix k cl idx : Nat)
    (rtail : List Nat) (m : Marks) (evs : List Event)
    (h : k + 1 ≤ HTTP_MAX_HEADER_SIZE) :
    executeLoop sink data ⟨ver, err, sc, mth, upg, str, tp, .HeaderValueDiscardWs, .General, fl, ix, k, cl⟩ idx (97 :: rtail) m evs
    = executeLoop sink data ⟨ver, err, sc, mth, upg, str, tp, .HeaderValue, .General, fl, 0, k + 1, cl⟩ (idx + 1) rtail
        { m with header_value_mark := setMark m.header_value_mark idx } evs := by
  have hcond : ¬ (HTTP_MAX_HEADER_SIZE < k + 1) := by
    simp [HTTP_MAX_HEADER_SIZE] at h ⊢; omega
  rw [executeLoop]
  simp [stateLeHeadersDone, State.toNat, hcond, retryLoop, stepByte,
        stepHeaderValueStart, lower]

/-- Consuming the 19-byte head `GET / HTTP/1.1\x0d\x0aX: ` from a fresh
request parser reaches `p19` with the message-begin, url, and header-field
events emitted, for any remaining input. -/
theorem c5_prefix (rest : List Nat) :
    execute (HttpParser.new .Request) okSink (c5head ++ rest)
    = executeLoop okSink (c5head ++ rest) p19 19 rest noMarks
        [Event.MessageBegin, Event.Url [47], Event.HeaderField [88]] := by
  simp [execute, executeLoop, retryLoop, stepByte, c5head, p19,
        stepStartReq, startMethodFor, stepReqMethod, reqMethodNext, methodBytes,
        stepReqSpacesBeforeUrl, parse_url_char, is_alpha, is_num, is_url_char,
        stepUrlNoWs, stepUrlMain, cbData, byteSlice, setMark,
        stepHeaderFieldStart, stepHeaderField, headerFieldStateStep, token, TOKEN,
        stepHeaderValueStart, stepHeaderValue, headerValueInner, lower,
        okSink, HttpParser.new, stateLeHeadersDone, State.toNat, HTTP_MAX_HEADER_SIZE,
        isUrlState, noMarks, ULLONG_MAX]

/-- Consuming the final `\x0d\x0a\x0d\x0a` of the 81000-byte scenario from
state `HeaderValue` completes the message without error. -/
theorem c5_tailA (evs : List Event) :
    executeLoop okSink c5dataA
      ⟨⟨1, 1⟩, none, 0, .Get, false, true, .Request, .HeaderValue, .General, 0, 0, 81019, ULLONG_MAX⟩
      81019 [13, 10, 13, 10] ⟨none, some 19, none, none, none⟩ evs
    = ⟨⟨⟨1, 1⟩, none, 0, .Get, false, true, .Request, .StartReq, .General, 0, 0, 0, ULLONG_MAX⟩,
       c5dataA.length,
       evs ++ [Event.HeaderValue (byteSlice c5dataA 19 81019), Event.HeadersComplete,
               Event.MessageComplete]⟩ := by
  simp [executeLoop, retryLoop, stepByte, stepHeaderValue, headerValueInner, lower,
        cbData, okSink, stepHeaderValueLws, stepHeaderFieldStart,
        stepHeadersAlmostDone, stepHeadersDone, msgCompleteTo, new_message,
        start_state, http_should_keep_alive, http_message_needs_eof,
        Flags.CONNECTION_CLOSE, Flags.CONNECTION_KEEP_ALIVE, Flags.CHUNKED,
        Flags.SKIPBODY, Flags.UPGRADE, Flags.TRAILING, ULLONG_MAX,
        stateLeHeadersDone, State.toNat, HTTP_MAX_HEADER_SIZE,
        finalizeMarks, finHeaderValue, finUrl, finBody, finStatus]

/-- Length of the 81000-byte scenario input. -/
theorem c5len : c5dataA.length = 81023 := by
  rw [c5dataA, List.length_append, List.length_append, List.length_replicate]
  norm_num [c5head, c5tail]

/-- The header-name matcher never changes `nread`. -/
theorem headerFieldStateStep_nread (p : HttpParser) (ch c : Nat) :
    (headerFieldStateStep p ch c).nread = p.nread := by
  unfold headerFieldStateStep
  (repeat' split) <;> rfl

/-- The header-value matcher never changes `nread`. -/
theorem headerValueInner_nread (p q : HttpParser) (ch c : Nat)
    (h : headerValueInner p ch c = some q) : q.nread = p.nread := by
  unfold headerValueInner at h
  dsimp only at h
  repeat' split at h
  all_goals first
    | exact Option.noConfusion h
    | (injection h with h2; rw [← h2])

/-- One state-dispatch pass either leaves `nread` unchanged or resets it
to 0. -/
theorem stepByte_nread (sink : Sink) (data : List Nat) (p : HttpParser)
    (ch idx : Nat) (m : Marks) (evs : List Event) :
    (stepByte sink data p ch idx m evs).parserOf.nread = p.nread ∨
    (stepByte sink data p ch idx m evs).parserOf.nread = 0 := by
  rcases hres : stepByte sink data p ch idx m evs with ⟨p2, v, evs2⟩ | ⟨p2, rt, i2, m2, evs2⟩ <;>
  simp only [StepRes.parserOf] <;>
  cases hp : p.state <;>
  simp only [stepByte, hp, cbData, msgCompleteTo,
    stepStartReqOrRes, startResMsgBegin, stepStartRes, stepStartReq,
    stepReqMethod, stepReqSpacesBeforeUrl, stepUrlNoWs, stepUrlMain,
    stepResStatus, stepHeaderFieldStart, stepHeaderField, stepHeaderValueStart,
    stepHeaderValue, stepHeaderValueLws, stepHeaderValueDiscardLws,
    stepHeadersAlmostDone, stepHeadersDone, stepBodyIdentity,
    stepBodyIdentityEof, stepChunkSizeStart, stepChunkSize,
    stepChunkParameters, stepChunkSizeAlmostDone, stepChunkData,
    stepChunkDataAlmostDone, stepChunkDataDone] at hres <;>
  (repeat' split at hres) <;>
  first
    | exact StepRes.noConfusion hres
    | (injection hres with e1 e2 e3
       subst e1
       first
         | (left; rfl)
         | (right; rfl)
         | (left; exact headerFieldStateStep_nread _ _ _)
         | (left; exact headerValueInner_nread _ _ _ _ (by assumption)))
    | (injection hres with e1 e2 e3 e4 e5
       subst e1
       first
         | (left; rfl)
         | (right; rfl)
         | (left; exact headerFieldStateStep_nread _ _ _)
         | (left; exact headerValueInner_nread _ _ _ _ (by assumption)))

/-- The retry loop either leaves `nread` unchanged or resets it to 0. -/
theorem retryLoop_nread (fuel : Nat) : ∀ (sink : Sink) (data : List Nat)
    (p : HttpParser) (ch idx : Nat) (m : Marks) (evs : List Event),
    (retryLoop fuel sink data p ch idx m evs).parserOf.nread = p.nread ∨
    (retryLoop fuel sink data p ch idx m evs).parserOf.nread = 0 := by
  induction fuel with
  | zero => intros; left; rfl
  | succ fuel ih =>
      intro sink data p ch idx m evs
      rw [retryLoop]
      have hstep := stepByte_nread sink data p ch idx m evs
      rcases hs : stepByte sink data p ch idx m evs with ⟨p2, v, e2⟩ | ⟨p2, rt, i2, m2, e2⟩ <;>
        rw [hs] at hstep <;> simp only [StepRes.parserOf] at hstep
      · simpa [StepRes.parserOf] using hstep
      · cases rt
        · simpa [StepRes.parserOf] using hstep
        · simp only [if_pos rfl]
          rcases ih sink data p2 ch i2 m2 e2 with h | h <;>
            rcases hstep with h2 | h2 <;> simp [h, h2]

/-- The end-of-data status flush never changes `nread`. -/
theorem finStatus_nread (sink : Sink) (data : List Nat) (p : HttpParser)
    (idx : Nat) (m : Marks) (evs : List Event) :
    (finStatus sink data p idx m evs).parser.nread = p.nread := by
  unfold finStatus; dsimp only; (repeat' split) <;> rfl

/-- The end-of-data body flush never changes `nread`. -/
theorem finBody_nread (sink : Sink) (data : List Nat) (p : HttpParser)
    (idx : Nat) (m : Marks) (evs : List Event) :
    (finBody sink data p idx m evs).parser.nread = p.nread := by
  unfold finBody; dsimp only; (repeat' split) <;> first | rfl | apply finStatus_nread

/-- The end-of-data url flush never changes `nread`. -/
theorem finUrl_nread (sink : Sink) (data : List Nat) (p : HttpParser)
    (idx : Nat) (m : Marks) (evs : List Event) :
    (finUrl sink data p idx m evs).parser.nread = p.nread := by
  unfold finUrl; dsimp only; (repeat' split) <;> first | rfl | apply finBody_nread

/-- The end-of-data header-value flush never changes `nread`. -/
theorem finHeaderValue_nread (sink : Sink) (data : List Nat) (p : HttpParser)
    (idx : Nat) (m : Marks) (evs : List Event) :
    (finHeaderValue sink data p idx m evs).parser.nread = p.nread := by
  unfold finHeaderValue; dsimp only; (repeat' split) <;> first | rfl | apply finUrl_nread

/-- The end-of-data mark flush never changes `nread`. -/
theorem finalizeMarks_nread (sink : Sink) (data : List Nat) (p : HttpParser)
    (idx : Nat) (m : Marks) (evs : List Event) :
    (finalizeMarks sink data p idx m evs).parser.nread = p.nread := by
  unfold finalizeMarks; dsimp only; (repeat' split) <;> first | rfl | apply finHeaderValue_nread

/-- Loop invariant: starting at or below the header-size limit, the byte loop
either halts with `HeaderOverflow` or keeps `nread` at or below the limit. -/
theorem executeLoop_nread (sink : Sink) (data : List Nat) (L : Nat) :
    ∀ (rest : List Nat), rest.length ≤ L →
    ∀ (p : HttpParser) (idx : Nat) (m : Marks) (evs : List Event),
    p.nread ≤ HTTP_MAX_HEADER_SIZE →
    (executeLoop sink data p idx rest m evs).parser.errno = some .HeaderOverflow ∨
    (executeLoop sink data p idx rest m evs).parser.nread ≤ HTTP_MAX_HEADER_SIZE := by
  induction L with
  | zero =>
      intro rest hlen p idx m evs hn
      have : rest = [] := List.eq_nil_of_length_eq_zero (Nat.le_zero.mp hlen)
      subst this
      right
      rw [executeLoop, finalizeMarks_nread]
      exact hn
  | succ L ih =>
      intro rest hlen p idx m evs hn
      match rest with
      | [] =>
          right
          rw [executeLoop, finalizeMarks_nread]
          exact hn
      | ch :: rtail =>
          have hlen2 : rtail.length ≤ L := by
            simp only [List.length_cons] at hlen; omega
          rw [executeLoop]
          by_cases hle : stateLeHeadersDone p.state = true
          · simp only [hle, if_true, true_and]
            by_cases hov : HTTP_MAX_HEADER_SIZE < p.nread + 1
            · left
              simp [hov]
            · rw [if_neg (by simpa using hov)]
              have hretry := retryLoop_nread 8 sink data
                { p with nread := p.nread + 1 } ch idx m evs
              rcases hres : retryLoop 8 sink data { p with nread := p.nread + 1 } ch idx m evs
                with ⟨p2, v, e2⟩ | ⟨p2, rt, i2, m2, e2⟩ <;>
                rw [hres] at hretry <;> simp only [StepRes.parserOf] at hretry
              · right
                dsimp only
                rcases hretry with h | h <;> rw [h] <;> (try dsimp only) <;> omega
              · have hp2 : p2.nread ≤ HTTP_MAX_HEADER_SIZE := by
                  rcases hretry with h | h <;> (try simp at h) <;> omega
                exact ih (List.drop (i2 - idx) rtail)
                  (by simp only [List.length_drop]; omega)
                  p2 (i2 + 1) m2 e2 hp2
          · simp only [hle, false_and, if_false, Bool.false_eq_true]
            have hretry := retryLoop_nread 8 sink data p ch idx m evs
            rcases hres : retryLoop 8 sink data p ch idx m evs
              with ⟨p2, v, e2⟩ | ⟨p2, rt, i2, m2, e2⟩ <;>
              rw [hres] at hretry <;> simp only [StepRes.parserOf] at hretry
            · right
              dsimp only
              rcases hretry with h | h <;> rw [h] <;> (try dsimp only) <;> omega
            · have hp2 : p2.nread ≤ HTTP_MAX_HEADER_SIZE := by
                rcases hretry with h | h <;> omega
              exact ih (List.drop (i2 - idx) rtail)
                (by simp only [List.length_drop]; omega)
                p2 (i2 + 1) m2 e2 hp2

/-- Execute-level form of the `nread` invariant. -/
theorem execute_nread_le (p : HttpParser) (sink : Sink) (data : List Nat)
    (hn : p.nread ≤ HTTP_MAX_HEADER_SIZE) :
    (execute p sink data).parser.errno = some .HeaderOverflow ∨
    (execute p sink data).parser.nread ≤ HTTP_MAX_HEADER_SIZE := by
  unfold execute
  by_cases he : p.errno.isSome
  · right; simp [he, hn]
  · by_cases hlen : data.length = 0
    · right
      simp only [he, if_false, hlen, if_true, Bool.false_eq_true]
      cases hs : p.state <;> simp [hn] <;> (repeat' split) <;> simp [hn]
    · simp only [he, if_false, hlen, if_true, Bool.false_eq_true]
      exact executeLoop_nread sink data data.length data (le_refl _) p 0 _ [] hn

/-- In state `HeadersDone`, unless the strict check fires, `nread` is reset
to 0 (`parser.rs` line 1243). -/
theorem headersDone_resets_nread (sink : Sink) (data : List Nat) (p : HttpParser)
    (ch idx : Nat) (m : Marks) (evs : List Event)
    (hst : p.state = .HeadersDone) (hok : ¬ (p.strict = true ∧ ch ≠ 10)) :
    (stepByte sink data p ch idx m evs).parserOf.nread = 0 := by
  simp only [stepByte, hst, stepHeadersDone, msgCompleteTo, if_neg hok]
  (repeat' split) <;> rfl

/-- In state `ChunkSizeAlmostDone`, unless the strict check fires, `nread` is
reset to 0 (`parser.rs` line 1399). -/
theorem chunkSizeAlmostDone_resets_nread (sink : Sink) (data : List Nat) (p : HttpParser)
    (ch idx : Nat) (m : Marks) (evs : List Event)
    (hst : p.state = .ChunkSizeAlmostDone) (hok : ¬ (p.strict = true ∧ ch ≠ 10)) :
    (stepByte sink data p ch idx m evs).parserOf.nread = 0 := by
  simp only [stepByte, hst, stepChunkSizeAlmostDone, if_neg hok]
  (repeat' split) <;> rfl

/-- In state `ChunkDataDone`, unless the strict check fires, `nread` is reset
to 0 (`parser.rs` line 1439). -/
theorem chunkDataDone_resets_nread (sink : Sink) (data : List Nat) (p : HttpParser)
    (ch idx : Nat) (m : Marks) (evs : List Event)
    (hst : p.state = .ChunkDataDone) (hok : ¬ (p.strict = true ∧ ch ≠ 10)) :
    (stepByte sink data p ch idx m evs).parserOf.nread = 0 := by
  simp only [stepByte, hst, stepChunkDataDone, if_neg hok]
  (repeat' split) <;> rfl

/-- C1 (counterexample): at the concrete request context with HTTP version
2.0 and no connection flags, the claim fails: 2.0 is a version later than
1.1 with `CONNECTION_CLOSE` clear and no need for EOF, yet
`http_should_keep_alive` returns false, because the code tests
`major > 0 && minor > 0` rather than the version order. -/
theorem C1_counterexample :
    ¬ (http_should_keep_alive p20cx = true ↔
        ((specVersionAtLeast11 p20cx.http_version ∧
            p20cx.flags &&& Flags.CONNECTION_CLOSE = 0) ∨
         (¬ specVersionAtLeast11 p20cx.http_version ∧
            p20cx.flags &&& Flags.CONNECTION_KEEP_ALIVE ≠ 0)) ∧
        http_message_needs_eof p20cx = false) := by
  decide

/-- C1 (amended): for every parser context, `http_should_keep_alive` returns
true exactly when: both version components are at least 1 (the code's
`major > 0 && minor > 0` test) and the `CONNECTION_CLOSE` flag is not set, or
one of the components is 0 and the `CONNECTION_KEEP_ALIVE` flag is set; and
in addition it returns false whenever `http_message_needs_eof` returns
true. -/
theorem C1_keep_alive_amended (p : HttpParser) :
    http_should_keep_alive p = true ↔
      (((1 ≤ p.http_version.major ∧ 1 ≤ p.http_version.minor) ∧
          p.flags &&& Flags.CONNECTION_CLOSE = 0) ∨
       (¬ (1 ≤ p.http_version.major ∧ 1 ≤ p.http_version.minor) ∧
          p.flags &&& Flags.CONNECTION_KEEP_ALIVE ≠ 0)) ∧
      http_message_needs_eof p = false := by
  unfold http_should_keep_alive
  split_ifs with h1 h2 h3 <;> simp_all <;> omega

/-- C2: for every parser context, `http_message_needs_eof` returns false
exactly when the parser is in request mode, or the status code is 1xx, 204
or 304, or the `SKIPBODY` flag is set, or the `CHUNKED` flag is set, or
`content_length` differs from the unset sentinel; in every other case it
returns true. -/
theorem C2_needs_eof (p : HttpParser) :
    http_message_needs_eof p = false ↔
      (p.tp = .Request ∨ (100 ≤ p.status_code ∧ p.status_code ≤ 199) ∨
       p.status_code = 204 ∨ p.status_code = 304 ∨
       p.flags &&& Flags.SKIPBODY ≠ 0 ∨ p.flags &&& Flags.CHUNKED ≠ 0 ∨
       p.content_length ≠ ULLONG_MAX) := by
  unfold http_message_needs_eof
  split_ifs with h1 h2 h3 <;> simp_all <;> omega

/-- C3: while parsing a Content-Length value (state `HeaderValue`, header
state `ContentLength`): a decimal digit is accumulated into `content_length`
when the overflow guard `(ULLONG_MAX - 10)/10 < content_length` does not
fire, and the accumulated value stays below the sentinel, so the 64-bit
accumulation never wraps; when the guard fires, `InvalidContentLength` is
recorded and the stored value is unchanged; a non-digit byte other than
space (and other than the CR/LF value terminators) records
`InvalidContentLength` and halts at that byte; and at the start of the value
a digit initialises `content_length` while a non-digit is rejected the same
way. -/
theorem C3_content_length (sink : Sink) (data : List Nat)
    (ver : HttpVersion) (err : Option HttpErrno) (sc : Nat) (mth : HttpMethod)
    (upg str : Bool) (tp : HttpParserType) (fl ix nr cl ch idx : Nat)
    (m : Marks) (evs : List Event) :
    ((48 ≤ ch ∧ ch ≤ 57) → cl ≤ (ULLONG_MAX - 10) / 10 →
      stepByte sink data ⟨ver, err, sc, mth, upg, str, tp, .HeaderValue, .ContentLength, fl, ix, nr, cl⟩ ch idx m evs
        = .cont ⟨ver, err, sc, mth, upg, str, tp, .HeaderValue, .ContentLength, fl, ix, nr, cl * 10 + (ch - 48)⟩ false idx m evs
      ∧ cl * 10 + (ch - 48) < ULLONG_MAX) ∧
    ((48 ≤ ch ∧ ch ≤ 57) → (ULLONG_MAX - 10) / 10 < cl →
      stepByte sink data ⟨ver, err, sc, mth, upg, str, tp, .HeaderValue, .ContentLength, fl, ix, nr, cl⟩ ch idx m evs
        = .ret ⟨ver, some .InvalidContentLength, sc, mth, upg, str, tp, .HeaderValue, .ContentLength, fl, ix, nr, cl⟩ idx evs) ∧
    (¬ (48 ≤ ch ∧ ch ≤ 57) → ch ≠ 32 → ch ≠ 13 → ch ≠ 10 →
      stepByte sink data ⟨ver, err, sc, mth, upg, str, tp, .HeaderValue, .ContentLength, fl, ix, nr, cl⟩ ch idx m evs
        = .ret ⟨ver, some .InvalidContentLength, sc, mth, upg, str, tp, .HeaderValue, .ContentLength, fl, ix, nr, cl⟩ idx evs) ∧
    ((48 ≤ ch ∧ ch ≤ 57) →
      stepByte sink data ⟨ver, err, sc, mth, upg, str, tp, .HeaderValueStart, .ContentLength, fl, ix, nr, cl⟩ ch idx m evs
        = .cont ⟨ver, err, sc, mth, upg, str, tp, .HeaderValue, .ContentLength, fl, 0, nr, ch - 48⟩ false idx
            { m with header_value_mark := setMark m.header_value_mark idx } evs) ∧
    (¬ (48 ≤ ch ∧ ch ≤ 57) →
      stepByte sink data ⟨ver, err, sc, mth, upg, str, tp, .HeaderValueStart, .ContentLength, fl, ix, nr, cl⟩ ch idx m evs
        = .ret ⟨ver, some .InvalidContentLength, sc, mth, upg, str, tp, .HeaderValue, .ContentLength, fl, 0, nr, cl⟩ idx evs) := by
  refine ⟨?_, ?_, ?_, ?_, ?_⟩
  · intro hd hg
    have h13 : ch ≠ 13 := by omega
    have h10 : ch ≠ 10 := by omega
    have h32 : ch ≠ 32 := by omega
    have hnum : is_num ch = true := by simp [is_num]; omega
    have hmod : (cl * 10 + (ch - 48)) % U64_MOD = cl * 10 + (ch - 48) := by
      apply Nat.mod_eq_of_lt
      simp [ULLONG_MAX] at hg
      simp [U64_MOD]
      omega
    constructor
    · simp [stepByte, stepHeaderValue, headerValueInner, h13, h10, h32, hnum, hmod,
            Nat.not_lt.mpr hg]
    · simp [ULLONG_MAX] at hg ⊢; omega
  · intro hd hg
    have h13 : ch ≠ 13 := by omega
    have h10 : ch ≠ 10 := by omega
    have h32 : ch ≠ 32 := by omega
    have hnum : is_num ch = true := by simp [is_num]; omega
    simp [stepByte, stepHeaderValue, headerValueInner, h13, h10, h32, hnum, hg]
  · intro hd h32 h13 h10
    have hnum : is_num ch = false := by simp [is_num]; omega
    simp [stepByte, stepHeaderValue, headerValueInner, h13, h10, h32, hnum]
  · intro hd
    have hnum : is_num ch = true := by simp [is_num]; omega
    simp [stepByte, stepHeaderValueStart, hnum]
  · intro hd
    have hnum : is_num ch = false := by simp [is_num]; omega
    simp [stepByte, stepHeaderValueStart, hnum]

/-- C3 (witness): the accumulation, guard, rejection and value-start cases
of `C3_content_length` evaluated at concrete inputs (value 7, digit `5`,
letter `A`, oversized value 1844674407370955161). -/
theorem C3_witness :
    (stepByte okSink [] ⟨⟨1, 1⟩, none, 0, .Get, false, true, .Request, .HeaderValue, .ContentLength, 0, 0, 20, 7⟩ 53 0 noMarks []
       = .cont ⟨⟨1, 1⟩, none, 0, .Get, false, true, .Request, .HeaderValue, .ContentLength, 0, 0, 20, 75⟩ false 0 noMarks []
     ∧ 75 < ULLONG_MAX) ∧
    (stepByte okSink [] ⟨⟨1, 1⟩, none, 0, .Get, false, true, .Request, .HeaderValue, .ContentLength, 0, 0, 20, 1844674407370955161⟩ 53 0 noMarks []
       = .ret ⟨⟨1, 1⟩, some .InvalidContentLength, 0, .Get, false, true, .Request, .HeaderValue, .ContentLength, 0, 0, 20, 1844674407370955161⟩ 0 []) ∧
    (stepByte okSink [] ⟨⟨1, 1⟩, none, 0, .Get, false, true, .Request, .HeaderValue, .ContentLength, 0, 0, 20, 7⟩ 65 0 noMarks []
       = .ret ⟨⟨1, 1⟩, some .InvalidContentLength, 0, .Get, false, true, .Request, .HeaderValue, .ContentLength, 0, 0, 20, 7⟩ 0 []) ∧
    (stepByte okSink [] ⟨⟨1, 1⟩, none, 0, .Get, false, true, .Request, .HeaderValueStart, .ContentLength, 0, 3, 20, 7⟩ 53 0 noMarks []
       = .cont ⟨⟨1, 1⟩, none, 0, .Get, false, true, .Request, .HeaderValue, .ContentLength, 0, 0, 20, 5⟩ false 0
           { noMarks with header_value_mark := setMark noMarks.header_value_mark 0 } []) ∧
    (stepByte okSink [] ⟨⟨1, 1⟩, none, 0, .Get, false, true, .Request, .HeaderValueStart, .ContentLength, 0, 3, 20, 7⟩ 65 0 noMarks []
       = .ret ⟨⟨1, 1⟩, some .InvalidContentLength, 0, .Get, false, true, .Request, .HeaderValue, .ContentLength, 0, 0, 20, 7⟩ 0 []) :=
  ⟨(C3_content_length okSink [] ⟨1, 1⟩ none 0 .Get false true .Request 0 0 20 7 53 0 noMarks []).1
      (by decide) (by decide),
   (C3_content_length okSink [] ⟨1, 1⟩ none 0 .Get false true .Request 0 0 20 1844674407370955161 53 0 noMarks []).2.1
      (by decide) (by decide),
   (C3_content_length okSink [] ⟨1, 1⟩ none 0 .Get false true .Request 0 0 20 7 65 0 noMarks []).2.2.1
      (by decide) (by decide) (by decide) (by decide),
   (C3_content_length okSink [] ⟨1, 1⟩ none 0 .Get false true .Request 0 3 20 7 53 0 noMarks []).2.2.2.1
      (by decide),
   (C3_content_length okSink [] ⟨1, 1⟩ none 0 .Get false true .Request 0 3 20 7 65 0 noMarks []).2.2.2.2
      (by decide)⟩

/-- C4 (counterexample): after executing exactly the status line
`HTTP/1.1 200 OK\x0d\x0a` on a fresh response parser, `nread` is 17, not 0:
`nread` is not reset after the status line, contradicting the claimed reset
boundary. -/
theorem C4_counterexample :
    (execute (HttpParser.new .Response) okSink statusLineBytes).parser.nread = 17 ∧
    (execute (HttpParser.new .Response) okSink statusLineBytes).parser.state = .HeaderFieldStart ∧
    (execute (HttpParser.new .Response) okSink statusLineBytes).parser.errno = none ∧
    (execute (HttpParser.new .Response) okSink statusLineBytes).consumed = 17 := by
  refine ⟨?_, ?_, ?_, ?_⟩ <;>
  simp [execute, executeLoop, retryLoop, stepByte, statusLineBytes,
        stepStartRes, startResMsgBegin, stepResStatus, cbData, byteSlice, setMark,
        is_num, lower,
        okSink, HttpParser.new, stateLeHeadersDone, State.toNat, HTTP_MAX_HEADER_SIZE,
        finalizeMarks, finHeaderValue, finUrl, finBody, finStatus, isUrlState, noMarks,
        ULLONG_MAX]

/-- C4 (amended): in every execution that starts with
`nread ≤ HTTP_MAX_HEADER_SIZE`, either the call halts with `HeaderOverflow`
(set the moment the incremented count exceeds the limit) or the final `nread`
is still at most the limit; and `nread` is reset to 0 at the three actual
boundaries of the code: the headers-terminating LF (`HeadersDone`), the LF
after the chunk-size line (`ChunkSizeAlmostDone`), and the LF after the CRLF
trailing chunk data (`ChunkDataDone`) — not after the status line. -/
theorem C4_nread_amended :
    (∀ (p : HttpParser) (sink : Sink) (data : List Nat),
        p.nread ≤ HTTP_MAX_HEADER_SIZE →
        (execute p sink data).parser.errno = some .HeaderOverflow ∨
        (execute p sink data).parser.nread ≤ HTTP_MAX_HEADER_SIZE) ∧
    (∀ (sink : Sink) (data : List Nat) (p : HttpParser) (ch idx : Nat)
        (m : Marks) (evs : List Event),
        p.state = .HeadersDone → ¬ (p.strict = true ∧ ch ≠ 10) →
        (stepByte sink data p ch idx m evs).parserOf.nread = 0) ∧
    (∀ (sink : Sink) (data : List Nat) (p : HttpParser) (ch idx : Nat)
        (m : Marks) (evs : List Event),
        p.state = .ChunkSizeAlmostDone → ¬ (p.strict = true ∧ ch ≠ 10) →
        (stepByte sink data p ch idx m evs).parserOf.nread = 0) ∧
    (∀ (sink : Sink) (data : List Nat) (p : HttpParser) (ch idx : Nat)
        (m : Marks) (evs : List Event),
        p.state = .ChunkDataDone → ¬ (p.strict = true ∧ ch ≠ 10) →
        (stepByte sink data p ch idx m evs).parserOf.nread = 0) :=
  ⟨fun p sink data hn => execute_nread_le p sink data hn,
   fun sink data p ch idx m evs h1 h2 =>
     headersDone_resets_nread sink data p ch idx m evs h1 h2,
   fun sink data p ch idx m evs h1 h2 =>
     chunkSizeAlmostDone_resets_nread sink data p ch idx m evs h1 h2,
   fun sink data p ch idx m evs h1 h2 =>
     chunkDataDone_resets_nread sink data p ch idx m evs h1 h2⟩

/-- C4 (witness): the amended invariant applied to a fresh request parser on
a one-byte chunk, and the three reset sites evaluated on LF at concrete
contexts. -/
theorem C4_witness :
    ((execute (HttpParser.new .Request) okSink [71]).parser.errno = some .HeaderOverflow ∨
     (execute (HttpParser.new .Request) okSink [71]).parser.nread ≤ HTTP_MAX_HEADER_SIZE) ∧
    (stepByte okSink [] pHeadersDone 10 0 noMarks []).parserOf.nread = 0 ∧
    (stepByte okSink [] ⟨⟨1, 1⟩, none, 0, .Get, false, true, .Request, .ChunkSizeAlmostDone, .General, 1, 0, 5, 0⟩ 10 0 noMarks []).parserOf.nread = 0 ∧
    (stepByte okSink [] ⟨⟨1, 1⟩, none, 0, .Get, false, true, .Request, .ChunkDataDone, .General, 1, 0, 5, 0⟩ 10 0 noMarks []).parserOf.nread = 0 :=
  ⟨C4_nread_amended.1 (HttpParser.new .Request) okSink [71] (by decide),
   C4_nread_amended.2.1 okSink [] pHeadersDone 10 0 noMarks [] rfl (by decide),
   C4_nread_amended.2.2.1 okSink []
     ⟨⟨1, 1⟩, none, 0, .Get, false, true, .Request, .ChunkSizeAlmostDone, .General, 1, 0, 5, 0⟩
     10 0 noMarks [] rfl (by decide),
   C4_nread_amended.2.2.2 okSink []
     ⟨⟨1, 1⟩, none, 0, .Get, false, true, .Request, .ChunkDataDone, .General, 1, 0, 5, 0⟩
     10 0 noMarks [] rfl (by decide)⟩

/-- C5 (counterexample): on the exact input of the claim — the 19-byte head,
81000 bytes `a` and the closing double CRLF, 81023 bytes in total — the
parse finishes with no error and `execute` returns 81023, because
81023 < 80 KiB = 81920: neither `HeaderOverflow` nor the return value 80001
claimed by the spec occurs. -/
theorem C5_counterexample :
    (execute (HttpParser.new .Request) okSink c5dataA).parser.errno = none ∧
    (execute (HttpParser.new .Request) okSink c5dataA).consumed = 81023 := by
  have h0 : c5dataA = c5head ++ (List.replicate 81000 97 ++ c5tail) := rfl
  have hpre := c5_prefix (List.replicate 81000 97 ++ c5tail)
  rw [← h0] at hpre
  rw [hpre, p19, show (List.replicate 81000 97 ++ c5tail)
        = 97 :: (List.replicate 80999 97 ++ c5tail) from rfl]
  rw [discardWsStep okSink c5dataA ⟨1, 1⟩ none 0 .Get false true .Request 0 0 19
        ULLONG_MAX 19 (List.replicate 80999 97 ++ c5tail) noMarks _
        (by simp [HTTP_MAX_HEADER_SIZE])]
  rw [show ({ noMarks with header_value_mark := setMark noMarks.header_value_mark 19 } : Marks)
        = ⟨none, some 19, none, none, none⟩ from rfl]
  rw [run_as okSink c5dataA ⟨1, 1⟩ none 0 .Get false true .Request 0 0
      ULLONG_MAX 80999 20 20 c5tail ⟨none, some 19, none, none, none⟩ _
      (by simp [HTTP_MAX_HEADER_SIZE])]
  rw [show (20 + 80999 : Nat) = 81019 from rfl,
      show (c5tail : List Nat) = [13, 10, 13, 10] from rfl, c5_tailA]
  simp [c5len]

/-- C5 (amended): executing the single chunk consisting of
`GET / HTTP/1.1\x0d\x0aX: ` followed by 82000 bytes `a` and the closing
double CRLF sets `errno` to `HeaderOverflow` and makes `execute` return
81920, the index of the byte at which `nread` first exceeds
`HTTP_MAX_HEADER_SIZE`. -/
theorem C5_overflow_amended :
    (execute (HttpParser.new .Request) okSink c5dataB).parser.errno = some .HeaderOverflow ∧
    (execute (HttpParser.new .Request) okSink c5dataB).consumed = 81920 := by
  have h0 : c5dataB = c5head ++ (List.replicate 82000 97 ++ c5tail) := rfl
  have hpre := c5_prefix (List.replicate 82000 97 ++ c5tail)
  rw [← h0] at hpre
  rw [hpre, p19, show (List.replicate 82000 97 ++ c5tail)
        = 97 :: (List.replicate 81999 97 ++ c5tail) from rfl]
  rw [discardWsStep okSink c5dataB ⟨1, 1⟩ none 0 .Get false true .Request 0 0 19
        ULLONG_MAX 19 (List.replicate 81999 97 ++ c5tail) noMarks _
        (by simp [HTTP_MAX_HEADER_SIZE])]
  rw [show ({ noMarks with header_value_mark := setMark noMarks.header_value_mark 19 } : Marks)
        = ⟨none, some 19, none, none, none⟩ from rfl]
  rw [run_as_overflow okSink c5dataB ⟨1, 1⟩ none 0 .Get false true .Request 0 0
      ULLONG_MAX 81999 20 20 c5tail ⟨none, some 19, none, none, none⟩ _
      (by simp [HTTP_MAX_HEADER_SIZE]) (by simp [HTTP_MAX_HEADER_SIZE])]
  simp [HTTP_MAX_HEADER_SIZE]

/-- C6 (counterexample): with strict mode on (the default), the request
`GET / HTTP/1.1\x0a\x0a` whose line terminators are bare LF parses to
completion with no error: a bare LF does not set `errno` to `Strict`,
contradicting the claim. -/
theorem C6_counterexample :
    (HttpParser.new .Request).strict = true ∧
    (execute (HttpParser.new .Request) okSink bareLfBytes).parser.errno = none ∧
    (execute (HttpParser.new .Request) okSink bareLfBytes).consumed = 16 := by
  refine ⟨rfl, ?_, ?_⟩ <;>
  simp [execute, executeLoop, retryLoop, stepByte, bareLfBytes,
        stepStartReq, startMethodFor, stepReqMethod, reqMethodNext, methodBytes,
        stepReqSpacesBeforeUrl, parse_url_char, is_alpha, is_num, is_url_char,
        stepUrlNoWs, stepUrlMain, cbData, byteSlice, setMark,
        stepHeaderFieldStart, stepHeaderField, headerFieldStateStep, token, TOKEN,
        stepHeaderValueStart, stepHeaderValue, headerValueInner, lower,
        stepHeaderValueLws, stepHeaderValueDiscardLws, stepHeadersAlmostDone,
        stepHeadersDone, msgCompleteTo, new_message, start_state,
        http_should_keep_alive, http_message_needs_eof, Flags.CONNECTION_CLOSE,
        Flags.CONNECTION_KEEP_ALIVE, Flags.CHUNKED, Flags.SKIPBODY, Flags.UPGRADE,
        Flags.TRAILING, ULLONG_MAX, U64_MOD,
        okSink, HttpParser.new, stateLeHeadersDone, State.toNat, HTTP_MAX_HEADER_SIZE,
        finalizeMarks, finHeaderValue, finUrl, finBody, finStatus, isUrlState, noMarks]

/-- C6 (amended): what strict mode actually enforces is that a CR at a line
end is followed by LF: after the status-line CR (`ResLineAlmostDone`), the
header-value CR (`HeaderAlmostDone`), the end-of-headers CR
(`HeadersAlmostDone`) and at `HeadersDone`, a non-LF byte sets `errno` to
`Strict` and halts at that byte; after the request-line CR a non-LF byte sets
`LFExpected` in both modes; and a bare LF is accepted as a line terminator in
both modes — ending the request version, the status code, a header value
(via the `HeaderAlmostDone` LF path) and opening the end of headers — with no
error recorded. -/
theorem C6_strict_amended (sink : Sink) (data : List Nat)
    (ver : HttpVersion) (err : Option HttpErrno) (sc : Nat) (mth : HttpMethod)
    (upg str : Bool) (tp : HttpParserType) (hs : HeaderState) (fl ix nr cl ch idx : Nat)
    (m : Marks) (evs : List Event) :
    (str = true → ch ≠ 10 →
      stepByte sink data ⟨ver, err, sc, mth, upg, str, tp, .ResLineAlmostDone, hs, fl, ix, nr, cl⟩ ch idx m evs
        = .ret ⟨ver, some .Strict, sc, mth, upg, str, tp, .ResLineAlmostDone, hs, fl, ix, nr, cl⟩ idx evs) ∧
    (str = true → ch ≠ 10 →
      stepByte sink data ⟨ver, err, sc, mth, upg, str, tp, .HeaderAlmostDone, hs, fl, ix, nr, cl⟩ ch idx m evs
        = .ret ⟨ver, some .Strict, sc, mth, upg, str, tp, .HeaderAlmostDone, hs, fl, ix, nr, cl⟩ idx evs) ∧
    (str = true → ch ≠ 10 →
      stepByte sink data ⟨ver, err, sc, mth, upg, str, tp, .HeadersAlmostDone, hs, fl, ix, nr, cl⟩ ch idx m evs
        = .ret ⟨ver, some .Strict, sc, mth, upg, str, tp, .HeadersAlmostDone, hs, fl, ix, nr, cl⟩ idx evs) ∧
    (str = true → ch ≠ 10 →
      stepByte sink data ⟨ver, err, sc, mth, upg, str, tp, .HeadersDone, hs, fl, ix, nr, cl⟩ ch idx m evs
        = .ret ⟨ver, some .Strict, sc, mth, upg, str, tp, .HeadersDone, hs, fl, ix, nr, cl⟩ idx evs) ∧
    (ch ≠ 10 →
      stepByte sink data ⟨ver, err, sc, mth, upg, str, tp, .ReqLineAlmostDone, hs, fl, ix, nr, cl⟩ ch idx m evs
        = .ret ⟨ver, some .LFExpected, sc, mth, upg, str, tp, .ReqLineAlmostDone, hs, fl, ix, nr, cl⟩ idx evs) ∧
    (stepByte sink data ⟨ver, err, sc, mth, upg, str, tp, .ReqHttpMinor, hs, fl, ix, nr, cl⟩ 10 idx m evs
        = .cont ⟨ver, err, sc, mth, upg, str, tp, .HeaderFieldStart, hs, fl, ix, nr, cl⟩ false idx m evs) ∧
    (stepByte sink data ⟨ver, err, sc, mth, upg, str, tp, .ResStatusCode, hs, fl, ix, nr, cl⟩ 10 idx m evs
        = .cont ⟨ver, err, sc, mth, upg, str, tp, .HeaderFieldStart, hs, fl, ix, nr, cl⟩ false idx m evs) ∧
    (stepByte sink data ⟨ver, err, sc, mth, upg, str, tp, .HeaderFieldStart, hs, fl, ix, nr, cl⟩ 10 idx m evs
        = .cont ⟨ver, err, sc, mth, upg, str, tp, .HeadersAlmostDone, hs, fl, ix, nr, cl⟩ true idx m evs) ∧
    (stepByte sink data ⟨ver, err, sc, mth, upg, str, tp, .HeaderAlmostDone, hs, fl, ix, nr, cl⟩ 10 idx m evs
        = .cont ⟨ver, err, sc, mth, upg, str, tp, .HeaderValueLws, hs, fl, ix, nr, cl⟩ false idx m evs) := by
  refine ⟨?_, ?_, ?_, ?_, ?_, ?_, ?_, ?_, ?_⟩
  · intro h1 h2; simp [stepByte, h1, h2]
  · intro h1 h2; simp [stepByte, h1, h2]
  · intro h1 h2; simp [stepByte, stepHeadersAlmostDone, h1, h2]
  · intro h1 h2; simp [stepByte, stepHeadersDone, h1, h2]
  · intro h2; simp [stepByte, h2]
  · simp [stepByte, is_num]
  · simp [stepByte, is_num]
  · simp [stepByte, stepHeaderFieldStart]
  · simp [stepByte]

/-- C6 (witness): the strict CR-enforcement and bare-LF acceptance of
`C6_strict_amended` evaluated at a concrete strict request context on byte
`X` (88) and on LF. -/
theorem C6_witness :
    (stepByte okSink [] ⟨⟨1, 1⟩, none, 0, .Get, false, true, .Request, .ResLineAlmostDone, .General, 0, 0, 3, ULLONG_MAX⟩ 88 5 noMarks []
       = .ret ⟨⟨1, 1⟩, some .Strict, 0, .Get, false, true, .Request, .ResLineAlmostDone, .General, 0, 0, 3, ULLONG_MAX⟩ 5 []) ∧
    (stepByte okSink [] ⟨⟨1, 1⟩, none, 0, .Get, false, true, .Request, .HeaderAlmostDone, .General, 0, 0, 3, ULLONG_MAX⟩ 88 5 noMarks []
       = .ret ⟨⟨1, 1⟩, some .Strict, 0, .Get, false, true, .Request, .HeaderAlmostDone, .General, 0, 0, 3, ULLONG_MAX⟩ 5 []) ∧
    (stepByte okSink [] ⟨⟨1, 1⟩, none, 0, .Get, false, true, .Request, .HeadersAlmostDone, .General, 0, 0, 3, ULLONG_MAX⟩ 88 5 noMarks []
       = .ret ⟨⟨1, 1⟩, some .Strict, 0, .Get, false, true, .Request, .HeadersAlmostDone, .General, 0, 0, 3, ULLONG_MAX⟩ 5 []) ∧
    (stepByte okSink [] ⟨⟨1, 1⟩, none, 0, .Get, false, true, .Request, .HeadersDone, .General, 0, 0, 3, ULLONG_MAX⟩ 88 5 noMarks []
       = .ret ⟨⟨1, 1⟩, some .Strict, 0, .Get, false, true, .Request, .HeadersDone, .General, 0, 0, 3, ULLONG_MAX⟩ 5 []) ∧
    (stepByte okSink [] ⟨⟨1, 1⟩, none, 0, .Get, false, true, .Request, .ReqLineAlmostDone, .General, 0, 0, 3, ULLONG_MAX⟩ 88 5 noMarks []
       = .ret ⟨⟨1, 1⟩, some .LFExpected, 0, .Get, false, true, .Request, .ReqLineAlmostDone, .General, 0, 0, 3, ULLONG_MAX⟩ 5 []) ∧
    (stepByte okSink [] ⟨⟨1, 1⟩, none, 0, .Get, false, true, .Request, .ReqHttpMinor, .General, 0, 0, 3, ULLONG_MAX⟩ 10 5 noMarks []
       = .cont ⟨⟨1, 1⟩, none, 0, .Get, false, true, .Request, .HeaderFieldStart, .General, 0, 0, 3, ULLONG_MAX⟩ false 5 noMarks []) :=
  ⟨(C6_strict_amended okSink [] ⟨1, 1⟩ none 0 .Get false true .Request .General 0 0 3 ULLONG_MAX 88 5 noMarks []).1
      rfl (by decide),
   (C6_strict_amended okSink [] ⟨1, 1⟩ none 0 .Get false true .Request .General 0 0 3 ULLONG_MAX 88 5 noMarks []).2.1
      rfl (by decide),
   (C6_strict_amended okSink [] ⟨1, 1⟩ none 0 .Get false true .Request .General 0 0 3 ULLONG_MAX 88 5 noMarks []).2.2.1
      rfl (by decide),
   (C6_strict_amended okSink [] ⟨1, 1⟩ none 0 .Get false true .Request .General 0 0 3 ULLONG_MAX 88 5 noMarks []).2.2.2.1
      rfl (by decide),
   (C6_strict_amended okSink [] ⟨1, 1⟩ none 0 .Get false true .Request .General 0 0 3 ULLONG_MAX 88 5 noMarks []).2.2.2.2.1
      (by decide),
   (C6_strict_amended okSink [] ⟨1, 1⟩ none 0 .Get false true .Request .General 0 0 3 ULLONG_MAX 88 5 noMarks []).2.2.2.2.2.1⟩

/-- C7: calling `execute` on an empty chunk with no pending error records no
error exactly when the state is `BodyIdentityEof` (in which case
`on_message_complete` is emitted), a start state, or `Dead`; in every other
state it sets `errno` to `InvalidEofState`. -/
theorem C7_empty_chunk (p : HttpParser) (h : p.errno = none) :
    ((execute p okSink []).parser.errno = none ↔
      (p.state = .BodyIdentityEof ∨ p.state = .StartReqOrRes ∨ p.state = .StartReq ∨
       p.state = .StartRes ∨ p.state = .Dead)) ∧
    (p.state = .BodyIdentityEof → (execute p okSink []).events = [Event.MessageComplete]) ∧
    (¬ (p.state = .BodyIdentityEof ∨ p.state = .StartReqOrRes ∨ p.state = .StartReq ∨
        p.state = .StartRes ∨ p.state = .Dead) →
      (execute p okSink []).parser.errno = some .InvalidEofState) := by
  cases hs : p.state <;> simp [execute, okSink, h, hs]

/-- C7 (witness): an EOF in `BodyIdentityEof` completes the message; an EOF
in the middle of a header value records `InvalidEofState`. -/
theorem C7_witness :
    (execute pBodyEof okSink []).events = [Event.MessageComplete] ∧
    (execute pMidHeaders okSink []).parser.errno = some .InvalidEofState :=
  ⟨(C7_empty_chunk pBodyEof rfl).2.1 rfl,
   (C7_empty_chunk pMidHeaders rfl).2.2 (by decide)⟩

/-- C8: `errno` is sticky: once it is set, any subsequent `execute` call
returns 0 immediately, leaves the parser context unchanged and invokes no
callback. -/
theorem C8_sticky_errno (p : HttpParser) (sink : Sink) (data : List Nat)
    (e : HttpErrno) (h : p.errno = some e) :
    execute p sink data = ⟨p, 0, []⟩ := by
  simp [execute, h]

/-- C8 (witness): a parser carrying a `Strict` error consumes nothing, emits
nothing and stays unchanged on a further one-byte chunk. -/
theorem C8_witness : execute pStickyErr okSink [71] = ⟨pStickyErr, 0, []⟩ :=
  C8_sticky_errno pStickyErr okSink [71] .Strict rfl

/-- C9: in response mode the port fires `on_message_begin` on a leading CR
byte: executing the single chunk `[0x0d]` on a fresh response parser emits
`MessageBegin` (and stays in `StartRes` with no error), contradicting the
claim that the callback never fires on a leading CR or LF — the invocation
was moved outside the byte match in the `StartRes` arm (`parser.rs` lines
439-453), unlike the `StartReq` and `StartReqOrRes` arms of the same file. -/
theorem C9_message_begin_bug :
    (execute (HttpParser.new .Response) okSink [13]).events = [Event.MessageBegin] ∧
    (execute (HttpParser.new .Response) okSink [13]).parser.errno = none ∧
    (execute (HttpParser.new .Response) okSink [13]).parser.state = .StartRes := by
  refine ⟨?_, ?_, ?_⟩ <;>
  simp [execute, executeLoop, retryLoop, stepByte, stepStartRes, startResMsgBegin,
        okSink, HttpParser.new, stateLeHeadersDone, State.toNat, HTTP_MAX_HEADER_SIZE,
        finalizeMarks, finHeaderValue, finUrl, finBody, finStatus, isUrlState, noMarks]

/-- C10: for every mode, a freshly created parser has strict mode enabled,
no error, upgrade false, all flags clear, HTTP version 1.0, status code 0,
method `Get`, and `content_length` equal to the unset sentinel
`u64::MAX - 1`. -/
theorem C10_new_defaults (tp : HttpParserType) :
    (HttpParser.new tp).strict = true ∧
    (HttpParser.new tp).errno = none ∧
    (HttpParser.new tp).upgrade = false ∧
    (HttpParser.new tp).flags = 0 ∧
    (HttpParser.new tp).http_version = ⟨1, 0⟩ ∧
    (HttpParser.new tp).status_code = 0 ∧
    (HttpParser.new tp).method = .Get ∧
    (HttpParser.new tp).content_length = ULLONG_MAX ∧
    ULLONG_MAX = 18446744073709551615 - 1 := by
  cases tp <;> exact ⟨rfl, rfl, rfl, rfl, rfl, rfl, rfl, rfl, rfl⟩

